import Mathlib

/-!
Verification of the workflow execution engine of the `workflow-use` repository.

The definitions below are a shallow embedding of the Python sources, chiefly
`workflows/workflow_use/workflow/service.py` (the `Workflow` orchestrator) and
`src/schema/views.py` (the step schema).  External collaborators (the browser
controller, the LLM agent, `json.loads`) are modelled as oracle functions
supplied in an `Env` record; everything the orchestrator itself does (step
dispatch, placeholder resolution, fallback, output capture, input validation)
is embedded as executable Lean functions.
-/

deriving instance DecidableEq for Except

namespace WorkflowUse

/-- Python runtime values as they occur in the workflow context: caller inputs,
parsed-JSON outputs of `json.loads`, the `\x7b'success', 'is_done'\x7d` status
record, and `None`.  (JSON floats are outside the modelled fragment; none of
the verified properties inspects numeric content.) -/
inductive PyValue where
  | none
  | bool (b : Bool)
  | int (n : Int)
  | str (s : String)
  | list (xs : List PyValue)
  | dict (fields : List (String × PyValue))

/-- The opening brace character, kept as a named constant. -/
def lbrace : Char := Char.ofNat 123

/-- The closing brace character, kept as a named constant. -/
def rbrace : Char := Char.ofNat 125

/-- A single-quote character, used when rendering Python `repr` of strings. -/
def squote : String := String.mk [Char.ofNat 39]

mutual
/-- Model of Python `str(value)` (equivalently `format(value, "")`): strings
render as themselves, containers render via `repr` of their elements. -/
def pyStr : PyValue → String
  | PyValue.none => "None"
  | PyValue.bool true => "True"
  | PyValue.bool false => "False"
  | PyValue.int n => toString n
  | PyValue.str s => s
  | PyValue.list xs => "[" ++ String.intercalate ", " (pyReprList xs) ++ "]"
  | PyValue.dict fs => "\x7b" ++ String.intercalate ", " (pyReprFields fs) ++ "\x7d"

/-- Model of Python `repr(value)`; like `pyStr` except strings are quoted.
(CPython switches to double quotes when the string itself holds a quote; the
verified properties never depend on that corner, so single quotes are used
throughout.) -/
def pyRepr : PyValue → String
  | PyValue.str s => squote ++ s ++ squote
  | PyValue.none => "None"
  | PyValue.bool true => "True"
  | PyValue.bool false => "False"
  | PyValue.int n => toString n
  | PyValue.list xs => "[" ++ String.intercalate ", " (pyReprList xs) ++ "]"
  | PyValue.dict fs => "\x7b" ++ String.intercalate ", " (pyReprFields fs) ++ "\x7d"

/-- `repr` of every element of a Python list. -/
def pyReprList : List PyValue → List String
  | [] => []
  | v :: vs => pyRepr v :: pyReprList vs

/-- `'key': repr(value)` rendering of every entry of a Python dict. -/
def pyReprFields : List (String × PyValue) → List String
  | [] => []
  | (k, v) :: fs => (squote ++ k ++ squote ++ ": " ++ pyRepr v) :: pyReprFields fs
end

/-- A Python dict with string keys, as insertion-ordered association list. -/
abbrev Ctx := List (String × PyValue)

/-- Model of Python dict lookup `d[k]` returning `Option`. -/
def ctxLookup (ctx : Ctx) (k : String) : Option PyValue :=
  (ctx.find? (fun p => p.1 = k)).map (·.2)

/-- Model of Python dict assignment `d[k] = v`: replaces the value in place if
the key exists (keeping insertion order), appends otherwise. -/
def ctxInsert (ctx : Ctx) (k : String) (v : PyValue) : Ctx :=
  if ctx.any (fun p => p.1 = k) then
    ctx.map (fun p => if p.1 = k then (k, v) else p)
  else
    ctx ++ [(k, v)]

/-- The exceptions Python `str.format` can raise.  `keyError` (a referenced
keyword argument is missing) is the only one `_resolve_placeholders` catches;
the others propagate out of the resolver.  `unsupported` marks format strings
outside the modelled fragment (conversion `!r`, a format spec after `:`, or
attribute/index sub-access on a field), which no verified property touches. -/
inductive FmtError where
  | keyError
  | valueError
  | indexError
  | unsupported
  deriving Repr, DecidableEq

/-- Characters that terminate the name part of a replacement field in
`str.format` (`.`/`[` start sub-access, `!` a conversion, `:` a format spec). -/
def isNameChar (c : Char) : Bool :=
  !(c = '.' || c = '[' || c = '!' || c = ':')

/-- Evaluate one replacement field of a format string against keyword
arguments `ctx`, following CPython: a field whose name part is empty or all
digits addresses positional arguments (none are passed by the resolver, so
`IndexError`); a brace inside the field is a `ValueError`; otherwise the name
is looked up among the keyword arguments, raising `KeyError` when absent.
Conversions, format specs and sub-access lie outside the modelled fragment. -/
def evalField (ctx : Ctx) (f : List Char) : Except FmtError String :=
  if f.contains lbrace then Except.error FmtError.valueError
  else
    let name := f.takeWhile isNameChar
    if name.isEmpty then Except.error FmtError.indexError
    else if name.all Char.isDigit then Except.error FmtError.indexError
    else
      match ctxLookup ctx (String.mk name) with
      | Option.none => Except.error FmtError.keyError
      | Option.some v =>
        if f.length = name.length then Except.ok (pyStr v)
        else Except.error FmtError.unsupported

/-- Scanner state of the `str.format` model: in literal text, just past an
opening or closing brace, or inside a replacement field (accumulating its
text in reverse). -/
inductive FmtMode where
  | normal
  | afterL
  | afterR
  | inField (acc : List Char)
  deriving Repr, DecidableEq

/-- Model of CPython `str.format(**ctx)` as a single pass over the character
list: `\x7b\x7b`/`\x7d\x7d` are literal braces, a lone closing brace or an
unterminated field is a `ValueError`, and each replacement field is evaluated
by `evalField`. -/
def pyFormatGo (ctx : Ctx) : FmtMode → List Char → Except FmtError (List Char)
  | FmtMode.normal, [] => Except.ok []
  | FmtMode.normal, c :: cs =>
    if c = lbrace then pyFormatGo ctx FmtMode.afterL cs
    else if c = rbrace then pyFormatGo ctx FmtMode.afterR cs
    else
      match pyFormatGo ctx FmtMode.normal cs with
      | Except.ok out => Except.ok (c :: out)
      | Except.error e => Except.error e
  | FmtMode.afterL, [] => Except.error FmtError.valueError
  | FmtMode.afterL, c :: cs =>
    if c = lbrace then
      match pyFormatGo ctx FmtMode.normal cs with
      | Except.ok out => Except.ok (lbrace :: out)
      | Except.error e => Except.error e
    else if c = rbrace then
      match evalField ctx [] with
      | Except.error e => Except.error e
      | Except.ok sub =>
        match pyFormatGo ctx FmtMode.normal cs with
        | Except.ok out => Except.ok (sub.data ++ out)
        | Except.error e => Except.error e
    else pyFormatGo ctx (FmtMode.inField [c]) cs
  | FmtMode.afterR, [] => Except.error FmtError.valueError
  | FmtMode.afterR, c :: cs =>
    if c = rbrace then
      match pyFormatGo ctx FmtMode.normal cs with
      | Except.ok out => Except.ok (rbrace :: out)
      | Except.error e => Except.error e
    else Except.error FmtError.valueError
  | FmtMode.inField _, [] => Except.error FmtError.valueError
  | FmtMode.inField acc, c :: cs =>
    if c = rbrace then
      match evalField ctx acc.reverse with
      | Except.error e => Except.error e
      | Except.ok sub =>
        match pyFormatGo ctx FmtMode.normal cs with
        | Except.ok out => Except.ok (sub.data ++ out)
        | Except.error e => Except.error e
    else pyFormatGo ctx (FmtMode.inField (c :: acc)) cs

/-- Model of `data.format(**ctx)` on strings. -/
def pyFormat (ctx : Ctx) (data : String) : Except FmtError String :=
  match pyFormatGo ctx FmtMode.normal data.data with
  | Except.ok out => Except.ok (String.mk out)
  | Except.error e => Except.error e

/-- Whether a string contains a given character (Python `c in s`). -/
def hasChar (s : String) (c : Char) : Bool := s.data.contains c

/-- Embedding of `Workflow._resolve_placeholders` restricted to strings
(service.py lines 241-251), returning additionally whether the outcome is a
fresh object (`format` ran to completion) or the original string (either the
brace pre-check failed or a `KeyError` was caught).  `ValueError`/`IndexError`
raised by `format` propagate. -/
def resolveStrC (ctx : Ctx) (data : String) : Except FmtError (String × Bool) :=
  if hasChar data lbrace && hasChar data rbrace then
    match pyFormat ctx data with
    | Except.ok s => Except.ok (s, true)
    | Except.error FmtError.keyError => Except.ok (data, false)
    | Except.error e => Except.error e
  else Except.ok (data, false)

/-- `Workflow._resolve_placeholders` on a string, value only. -/
def resolvePlaceholdersStr (ctx : Ctx) (data : String) : Except FmtError String :=
  (resolveStrC ctx data).map (·.1)

/-- `browser_use.agent.views.ActionResult` as consumed by the orchestrator:
only the four fields the workflow engine reads. -/
structure ActionResult where
  success : Option Bool := Option.none
  is_done : Option Bool := Option.none
  extracted_content : Option String := Option.none
  error : Option String := Option.none
  deriving Repr, DecidableEq

/-- One recorded agent step: the list of action results it produced. -/
structure AgentHistory where
  result : List ActionResult
  deriving Repr, DecidableEq

/-- `browser_use.agent.views.AgentHistoryList` as consumed by the engine. -/
structure AgentHistoryList where
  history : List AgentHistory
  deriving Repr, DecidableEq

/-- Fields shared by every step type (`BaseWorkflowStep` in
`src/schema/views.py`): optional description and output key, informational
recording fields, and the extra fields tolerated by `extra = "allow"`. -/
structure BaseStepFields where
  description : Option String := Option.none
  output : Option String := Option.none
  timestamp : Option Int := Option.none
  tabId : Option Int := Option.none
  extra : Ctx := []

/-- The tagged union of step kinds (`WorkflowStep` in `src/schema/views.py`):
the agentic variant plus the deterministic variants. -/
inductive WorkflowStep where
  | agent (base : BaseStepFields) (task : String) (max_steps : Option Int)
  | navigation (base : BaseStepFields) (url : String)
  | click (base : BaseStepFields) (cssSelector : String)
      (xpath elementTag elementText : Option String)
  | input (base : BaseStepFields) (cssSelector value : String)
      (xpath elementTag : Option String)
  | select_change (base : BaseStepFields) (cssSelector selectedText : String)
      (xpath elementTag : Option String)
  | key_press (base : BaseStepFields) (cssSelector key : String)
      (xpath elementTag : Option String)
  | scroll (base : BaseStepFields) (scrollX scrollY : Int)
  | extract_content (base : BaseStepFields) (goal : String)
      (should_strip_link_urls : Option Bool)

/-- The `type` discriminator literal of a step. -/
def WorkflowStep.type : WorkflowStep → String
  | WorkflowStep.agent .. => "agent"
  | WorkflowStep.navigation .. => "navigation"
  | WorkflowStep.click .. => "click"
  | WorkflowStep.input .. => "input"
  | WorkflowStep.select_change .. => "select_change"
  | WorkflowStep.key_press .. => "key_press"
  | WorkflowStep.scroll .. => "scroll"
  | WorkflowStep.extract_content .. => "extract_content"

/-- The shared base fields of a step. -/
def WorkflowStep.base : WorkflowStep → BaseStepFields
  | WorkflowStep.agent b .. => b
  | WorkflowStep.navigation b .. => b
  | WorkflowStep.click b .. => b
  | WorkflowStep.input b .. => b
  | WorkflowStep.select_change b .. => b
  | WorkflowStep.key_press b .. => b
  | WorkflowStep.scroll b .. => b
  | WorkflowStep.extract_content b .. => b

/-- `step.description`. -/
def WorkflowStep.description (s : WorkflowStep) : Option String := s.base.description

/-- `step.output`. -/
def WorkflowStep.output (s : WorkflowStep) : Option String := s.base.output

/-- Whether the step routes to the agent delegate
(`isinstance(step, AgenticWorkflowStep)`). -/
def WorkflowStep.isAgent : WorkflowStep → Bool
  | WorkflowStep.agent .. => true
  | _ => false

/-- The declared `task` of an agentic step. -/
def WorkflowStep.task? : WorkflowStep → Option String
  | WorkflowStep.agent _ t _ => Option.some t
  | _ => Option.none

/-- Render an optional bool the way `model_dump` carries it. -/
def optBoolVal : Option Bool → PyValue
  | Option.none => PyValue.none
  | Option.some b => PyValue.bool b

/-- Render an optional int the way `model_dump` carries it. -/
def optIntVal : Option Int → PyValue
  | Option.none => PyValue.none
  | Option.some n => PyValue.int n

/-- Render an optional string the way `model_dump` carries it. -/
def optStrVal : Option String → PyValue
  | Option.none => PyValue.none
  | Option.some s => PyValue.str s

/-- The base part of `step.model_dump()`, in pydantic declaration order
(parent-class fields first). -/
def baseDump (b : BaseStepFields) : Ctx :=
  [("description", optStrVal b.description), ("output", optStrVal b.output),
   ("timestamp", optIntVal b.timestamp), ("tabId", optIntVal b.tabId)]

/-- `step.model_dump()` as a Python dict: declared fields in order, then the
extra fields preserved by `extra = "allow"`. -/
def WorkflowStep.dumpFields : WorkflowStep → Ctx
  | WorkflowStep.agent b task ms =>
    baseDump b ++ [("type", PyValue.str "agent"), ("task", PyValue.str task),
      ("max_steps", optIntVal ms)] ++ b.extra
  | WorkflowStep.navigation b url =>
    baseDump b ++ [("type", PyValue.str "navigation"), ("url", PyValue.str url)] ++ b.extra
  | WorkflowStep.click b css x tag txt =>
    baseDump b ++ [("type", PyValue.str "click"), ("cssSelector", PyValue.str css),
      ("xpath", optStrVal x), ("elementTag", optStrVal tag),
      ("elementText", optStrVal txt)] ++ b.extra
  | WorkflowStep.input b css v x tag =>
    baseDump b ++ [("type", PyValue.str "input"), ("cssSelector", PyValue.str css),
      ("value", PyValue.str v), ("xpath", optStrVal x), ("elementTag", optStrVal tag)] ++ b.extra
  | WorkflowStep.select_change b css sel x tag =>
    baseDump b ++ [("type", PyValue.str "select_change"), ("cssSelector", PyValue.str css),
      ("selectedText", PyValue.str sel), ("xpath", optStrVal x),
      ("elementTag", optStrVal tag)] ++ b.extra
  | WorkflowStep.key_press b css k x tag =>
    baseDump b ++ [("type", PyValue.str "key_press"), ("cssSelector", PyValue.str css),
      ("key", PyValue.str k), ("xpath", optStrVal x), ("elementTag", optStrVal tag)] ++ b.extra
  | WorkflowStep.scroll b sx sy =>
    baseDump b ++ [("type", PyValue.str "scroll"), ("scrollX", PyValue.int sx),
      ("scrollY", PyValue.int sy)] ++ b.extra
  | WorkflowStep.extract_content b goal strip =>
    baseDump b ++ [("type", PyValue.str "extract_content"), ("goal", PyValue.str goal),
      ("should_strip_link_urls", optBoolVal strip)] ++ b.extra

/-- `_resolve_placeholders` on an `Optional[str]` field: `None` passes through
unchanged, a string resolves as a string. -/
def resolveOptStrC (ctx : Ctx) : Option String → Except FmtError (Option String × Bool)
  | Option.none => Except.ok (Option.none, false)
  | Option.some s => (resolveStrC ctx s).map (fun p => (Option.some p.1, p.2))

/-- `_resolve_placeholders` over the shared base fields.  The integer fields
pass through unchanged, and the extra fields are untouched because the
pydantic branch iterates `model_fields`, which excludes extras. -/
def resolveBaseC (ctx : Ctx) (b : BaseStepFields) : Except FmtError (BaseStepFields × Bool) := do
  let d ← resolveOptStrC ctx b.description
  let o ← resolveOptStrC ctx b.output
  Except.ok ({ b with description := d.1, output := o.1 }, d.2 || o.2)

/-- Embedding of `Workflow._resolve_placeholders` on a step record
(service.py lines 272-285): every string-valued declared field is resolved
against the context; the boolean reports whether any field actually changed
(`model_changed`), in which case Python builds a `model_copy` — otherwise the
*original* step object is returned.  The `type` literal never contains a
brace, so resolving it is the identity and is omitted. -/
def resolveStepC (ctx : Ctx) : WorkflowStep → Except FmtError (WorkflowStep × Bool)
  | WorkflowStep.agent b task ms => do
    let rb ← resolveBaseC ctx b
    let t ← resolveStrC ctx task
    Except.ok (WorkflowStep.agent rb.1 t.1 ms, rb.2 || t.2)
  | WorkflowStep.navigation b url => do
    let rb ← resolveBaseC ctx b
    let u ← resolveStrC ctx url
    Except.ok (WorkflowStep.navigation rb.1 u.1, rb.2 || u.2)
  | WorkflowStep.click b css x tag txt => do
    let rb ← resolveBaseC ctx b
    let c ← resolveStrC ctx css
    let rx ← resolveOptStrC ctx x
    let rt ← resolveOptStrC ctx tag
    let re ← resolveOptStrC ctx txt
    Except.ok (WorkflowStep.click rb.1 c.1 rx.1 rt.1 re.1, rb.2 || c.2 || rx.2 || rt.2 || re.2)
  | WorkflowStep.input b css v x tag => do
    let rb ← resolveBaseC ctx b
    let c ← resolveStrC ctx css
    let rv ← resolveStrC ctx v
    let rx ← resolveOptStrC ctx x
    let rt ← resolveOptStrC ctx tag
    Except.ok (WorkflowStep.input rb.1 c.1 rv.1 rx.1 rt.1, rb.2 || c.2 || rv.2 || rx.2 || rt.2)
  | WorkflowStep.select_change b css sel x tag => do
    let rb ← resolveBaseC ctx b
    let c ← resolveStrC ctx css
    let rs ← resolveStrC ctx sel
    let rx ← resolveOptStrC ctx x
    let rt ← resolveOptStrC ctx tag
    Except.ok (WorkflowStep.select_change rb.1 c.1 rs.1 rx.1 rt.1, rb.2 || c.2 || rs.2 || rx.2 || rt.2)
  | WorkflowStep.key_press b css k x tag => do
    let rb ← resolveBaseC ctx b
    let c ← resolveStrC ctx css
    let rk ← resolveStrC ctx k
    let rx ← resolveOptStrC ctx x
    let rt ← resolveOptStrC ctx tag
    Except.ok (WorkflowStep.key_press rb.1 c.1 rk.1 rx.1 rt.1, rb.2 || c.2 || rk.2 || rx.2 || rt.2)
  | WorkflowStep.scroll b sx sy => do
    let rb ← resolveBaseC ctx b
    Except.ok (WorkflowStep.scroll rb.1 sx sy, rb.2)
  | WorkflowStep.extract_content b goal strip => do
    let rb ← resolveBaseC ctx b
    let g ← resolveStrC ctx goal
    Except.ok (WorkflowStep.extract_content rb.1 g.1 strip, rb.2 || g.2)

/-- `WORKFLOW_FALLBACK_PROMPT_TEMPLATE` of `workflow_use/workflow/prompts.py`
with its fields substituted (all field values are always supplied, so the
`format` call is plain substitution). -/
def WORKFLOW_FALLBACK_PROMPT_TEMPLATE (step_index total_steps : Nat)
    (workflow_details action_type fail_details failed_value : String) : String :=
  "Your task is to complete the step " ++ toString step_index ++ " of the workflow:\n\n" ++
  workflow_details ++
  "\n\n* There are " ++ toString total_steps ++
  " steps in the workflow. You are currently on step " ++ toString step_index ++
  ". You can safely assume that the steps before this one were completed successfully.\n\n" ++
  "* This deterministic action " ++ squote ++ action_type ++ squote ++
  " was attempted but failed with the following context:\n" ++ fail_details ++
  "\n\n* The intended target or expected value for this step was: " ++ failed_value ++
  "\n\n* Please analyze the situation and achieve the objective of step " ++
  toString step_index ++ " using the available browser actions. \n\n" ++
  "* Once the objective of step " ++ toString step_index ++
  " is reached, call the `Done` action to complete the step. \n\n" ++
  "* Do not proceed to the next step; focus ONLY on completing step " ++
  toString step_index ++ ". DON" ++ squote ++ "T DO ANYTHING ELSE.\n"

/-- `AGENTIC_STEP_PROMPT_TEMPLATE` of `workflow_use/workflow/prompts.py` with
its fields substituted. -/
def AGENTIC_STEP_PROMPT_TEMPLATE (task workflow_details : String)
    (step_index total_steps : Nat) : String :=
  "Your task is: " ++ task ++
  "\n\n## More context and instructions:\n* Your task is to complete the step " ++
  toString step_index ++ " of the workflow:\n\n" ++ workflow_details ++
  "\n\n* There are " ++ toString total_steps ++
  " steps in the workflow. You are currently on step " ++ toString step_index ++
  ". You can safely assume that the steps before this one were completed successfully.\n" ++
  "* Remember your task is to complete the step " ++ toString step_index ++
  " of the workflow ONLY.\n* Once the objective of step " ++ toString step_index ++
  " is reached, call the `Done` action to complete the step. \n" ++
  "* Do not proceed to the next step; focus ONLY on completing step " ++
  toString step_index ++ ". DON" ++ squote ++ "T DO ANYTHING ELSE.\n"

/-- `step.description or ""`. -/
def descOrEmpty (o : Option String) : String :=
  match o with
  | Option.none => ""
  | Option.some s => s

/-- One line of `Workflow._get_workflow_overview` (service.py lines 136-151). -/
def overviewLine (highlight : Option Nat) (idx : Nat) (step : WorkflowStep) : String :=
  let desc := descOrEmpty step.description
  let details := pyStr (PyValue.dict step.dumpFields)
  if highlight = Option.some idx then
    "  ** " ++ toString (idx + 1) ++ ". (" ++ step.type ++ ") " ++ desc ++ " ** - " ++ details
  else
    "  " ++ toString (idx + 1) ++ ". (" ++ step.type ++ ") " ++ desc ++ " - " ++ details

/-- `Workflow._get_workflow_overview`: the stored steps rendered one per line,
optionally highlighting one index. -/
def getWorkflowOverview (steps : List WorkflowStep) (highlight : Option Nat) : String :=
  String.intercalate "\n" (steps.enum.map (fun p => overviewLine highlight p.1 p.2))

/-- `step_resolved.description or "No description provided"`. -/
def stepDescription (s : WorkflowStep) : String :=
  match s.description with
  | Option.none => "No description provided"
  | Option.some d => if d = "" then "No description provided" else d

/-- The `fail_details` diagnostic string of `Workflow._fallback_to_agent`
(service.py lines 169-172). -/
def failDetails (total : Nat) (i : Nat) (s : WorkflowStep) (errMsg : String) : String :=
  "step=" ++ toString (i + 1) ++ "/" ++ toString total ++ ", action=" ++ squote ++ s.type ++
  squote ++ ", description=" ++ squote ++ stepDescription s ++ squote ++ ", params=" ++
  pyStr (PyValue.dict s.dumpFields) ++ ", error=" ++ squote ++ errMsg ++ squote

/-- The `description_suffix` of `Workflow._fallback_to_agent` (line 177). -/
def descriptionSuffix (s : WorkflowStep) : String :=
  let d := stepDescription s
  if d ≠ "" && d ≠ "No description provided" then
    "The purpose of this step is: " ++ d ++ ". "
  else ""

/-- The `failed_value` of `Workflow._fallback_to_agent` (lines 176-194),
branching on the concrete step class. -/
def failedValue (s : WorkflowStep) : String :=
  match s with
  | WorkflowStep.navigation _ url =>
    "Navigate to URL: " ++ url ++ ". " ++ descriptionSuffix s
  | WorkflowStep.click .. =>
    "Find and click element with description: " ++
      (match s.description with
       | Option.none => "None"
       | Option.some d => d)
  | WorkflowStep.input _ _ v _ _ =>
    "Input text: " ++ squote ++ v ++ squote ++ " into element. " ++ descriptionSuffix s
  | WorkflowStep.select_change _ _ sel _ _ =>
    "Select option: " ++ squote ++ sel ++ squote ++ " in dropdown. " ++ descriptionSuffix s
  | WorkflowStep.key_press _ _ k _ _ =>
    "Press key: " ++ squote ++ k ++ squote ++ ". " ++ descriptionSuffix s
  | WorkflowStep.scroll _ sx sy =>
    "Scroll to position: (x=" ++ toString sx ++ ", y=" ++ toString sy ++ "). " ++
      descriptionSuffix s
  | _ =>
    "No specific target value available for action " ++ squote ++ s.type ++ squote ++ ". " ++
      descriptionSuffix s

/-- The synthesized fallback task handed to the agent by
`Workflow._fallback_to_agent`: workflow overview with the failing step
highlighted, the failure diagnostics, and the step's expected value. -/
def fallbackTask (stored : List WorkflowStep) (i : Nat) (s : WorkflowStep)
    (errMsg : String) : String :=
  WORKFLOW_FALLBACK_PROMPT_TEMPLATE (i + 1) stored.length
    (getWorkflowOverview stored (Option.some i)) s.type
    (failDetails stored.length i s errMsg) (failedValue s)

/-- The external collaborators the orchestrator calls into, as oracles:
`controller.act` on the live browser (which may raise — `Except.error`),
`Agent(...).run(max_steps=...)`, and `json.loads` (returning `none` where
Python raises). -/
structure Env where
  controllerAct : WorkflowStep → Except String ActionResult
  agentRun : String → Int → Except String AgentHistoryList
  jsonLoads : String → Option PyValue

/-- The declared type of a workflow input (`string|number|bool`). -/
inductive InputType where
  | string
  | number
  | bool
  deriving Repr, DecidableEq

/-- Modelled from the spec: `WorkflowInputSchemaDefinition` of the
`workflow_use.schema.views` module, which is absent from the source tree (only
its importer `workflow_use/workflow/service.py` is present).  Per §3 of the
spec an input schema is an ordered set of named, typed (`string|number|bool`)
declarations, each optionally `required`; the service reads exactly the
attributes `name`, `type` and `required` of each entry. -/
structure InputDef where
  name : String
  type : InputType
  required : Bool := false

/-- The per-run configuration of a `Workflow` instance: the loaded steps, the
declared input schema, whether an LLM was supplied (`self.llm is not None`),
and the `fallback_to_agent` flag. -/
structure WorkflowConfig where
  steps : List WorkflowStep
  inputs_def : List InputDef := []
  hasLLM : Bool := true
  fallback_to_agent : Bool := true

/-- The result of one executed step: an `ActionResult` from the dispatcher or
an `AgentHistoryList` from the agent delegate. -/
inductive StepResult where
  | action (r : ActionResult)
  | agent (h : AgentHistoryList)
  deriving Repr, DecidableEq

/-- `Workflow._run_deterministic_step` (service.py lines 103-116): delegate to
`controller.act` and wrap any raised exception in a `RuntimeError` naming the
action. -/
def runDeterministicStep (env : Env) (step : WorkflowStep) : Except String ActionResult :=
  match env.controllerAct step with
  | Except.ok r => Except.ok r
  | Except.error e =>
    Except.error ("Deterministic action " ++ squote ++ step.type ++ squote ++
      " failed: " ++ e)

/-- `max_steps: int = step.max_steps or 5` (service.py line 124): any falsy
declared budget — absent (`None`) or `0` — is replaced by the default `5`. -/
def effectiveMaxSteps : Option Int → Int
  | Option.none => 5
  | Option.some v => if v = 0 then 5 else v

/-- `Workflow._run_agent_step` (service.py lines 118-134): requires an LLM,
then runs the agent on the step task with the effective step budget. -/
def runAgentStep (env : Env) (wf : WorkflowConfig) (task : String)
    (max_steps : Option Int) : Except String AgentHistoryList :=
  if wf.hasLLM then env.agentRun task (effectiveMaxSteps max_steps)
  else
    Except.error ("An " ++ squote ++ "llm" ++ squote ++
      " instance must be supplied for agent-based steps")

/-- `Workflow._fallback_to_agent` (service.py lines 153-221): requires an LLM,
synthesizes the fallback task and runs it as an agentic step with
`max_steps = 5`. -/
def fallbackToAgent (env : Env) (wf : WorkflowConfig) (stored : List WorkflowStep)
    (i : Nat) (s : WorkflowStep) (errMsg : String) : Except String AgentHistoryList :=
  if wf.hasLLM then
    runAgentStep env wf (fallbackTask stored i s errMsg) (Option.some 5)
  else
    Except.error ("Cannot fall back to agent: An " ++ squote ++ "llm" ++ squote ++
      " instance must be supplied")

/-- The `except` branch of the deterministic case in `Workflow._execute_step`
(service.py lines 350-360): without an LLM the failure is re-raised as the
LLM-required error; with fallback enabled the agent delegate is invoked;
otherwise the step failure aborts. -/
def detFallback (env : Env) (wf : WorkflowConfig) (stored : List WorkflowStep)
    (i : Nat) (s : WorkflowStep) (errMsg : String) : Except String StepResult :=
  if !wf.hasLLM then
    Except.error "Cannot fall back to agent: LLM instance required."
  else if wf.fallback_to_agent then
    (fallbackToAgent env wf stored i s errMsg).map StepResult.agent
  else
    Except.error ("Deterministic step " ++ toString (i + 1) ++ " (" ++ s.type ++
      ") failed: " ++ errMsg)

/-- The prompt written into an agentic step before it runs
(service.py lines 365-370). -/
def agenticTaskPrompt (stored : List WorkflowStep) (i : Nat) (task : String) : String :=
  AGENTIC_STEP_PROMPT_TEMPLATE task (getWorkflowOverview stored (Option.some i))
    (i + 1) stored.length

/-- The deterministic branch of `Workflow._execute_step` (lines 339-360): run
the dispatcher; an exception, or an `ActionResult` carrying a *truthy* error
(`if isinstance(result, ActionResult) and result.error:` at line 347), enters
the fallback path.  An `error` field holding `None` — or the falsy empty
string — counts as success and the result is returned as-is. -/
def detExec (env : Env) (wf : WorkflowConfig) (stored : List WorkflowStep)
    (i : Nat) (s : WorkflowStep) : Except String StepResult :=
  match runDeterministicStep env s with
  | Except.ok r =>
    match r.error with
    | Option.none => Except.ok (StepResult.action r)
    | Option.some err =>
      if err = "" then Except.ok (StepResult.action r)
      else
        detFallback env wf stored i s
          ("Deterministic action " ++ s.type ++ " failed: " ++ err)
  | Except.error e => detFallback env wf stored i s e

/-- Embedding of `Workflow._execute_step` (service.py lines 334-373).  Besides
the step result it returns the stored step list after execution: the agentic
branch assigns `step_resolved.task = task_prompt`, and when placeholder
resolution changed no field, `step_resolved` *is* the stored schema step
(`_resolve_placeholders` returned the original object), so the assignment
mutates the stored list in place; when a field changed, the assignment hits
the `model_copy` and the stored list is untouched. -/
def executeStep (env : Env) (wf : WorkflowConfig) (stored : List WorkflowStep)
    (i : Nat) (s : WorkflowStep) (changed : Bool) :
    Except String StepResult × List WorkflowStep :=
  match s with
  | WorkflowStep.agent b task ms =>
    let prompt := agenticTaskPrompt stored i task
    let stored2 := if changed then stored else stored.set i (WorkflowStep.agent b prompt ms)
    ((runAgentStep env wf prompt ms).map StepResult.agent, stored2)
  | _ => (detExec env wf stored i s, stored)

/-- Embedding of `Workflow._store_output` (service.py lines 290-332).  A falsy
output key (`None` or `""`) stores nothing; otherwise a value is computed from
the step result and **unconditionally** written into the context under the
key — when the agent history yields no usable content the computed value is
still `None` and the write still happens. -/
def storeOutput (jsonLoads : String → Option PyValue) (ctx : Ctx)
    (stepCfg : WorkflowStep) (result : StepResult) : Ctx :=
  match stepCfg.output with
  | Option.none => ctx
  | Option.some key =>
    if key = "" then ctx
    else
      let value : PyValue :=
        match result with
        | StepResult.action r =>
          match r.extracted_content with
          | Option.none =>
            PyValue.dict [("success", optBoolVal r.success), ("is_done", optBoolVal r.is_done)]
          | Option.some content =>
            match jsonLoads content with
            | Option.some v => v
            | Option.none => PyValue.str content
        | StepResult.agent h =>
          match h.history.getLast? with
          | Option.none => PyValue.none
          | Option.some last =>
            match last.result.reverse.find? (fun r => r.extracted_content.isSome) with
            | Option.none => PyValue.none
            | Option.some r =>
              match r.extracted_content with
              | Option.none => PyValue.none
              | Option.some c =>
                if c = "" then PyValue.none
                else
                  match jsonLoads c with
                  | Option.some v => v
                  | Option.none => PyValue.str c
      ctxInsert ctx key value

/-- Model of pydantic (v2, lax mode) accepting a provided value for a declared
input type.  The verified properties use it only in the rejection direction
(a `false` here means the generated input model raises), so where the lax
string-coercion frontier is fuzzy the model errs on the side of acceptance:
`str` fields accept exactly strings (lax `str` coerces no number, boolean or
`None`); `float` fields accept ints and any string (which numeric spellings —
exponents, `inf`, whitespace — coerce is outside the model) and reject
`None`, booleans (explicitly disallowed for numbers in v2), lists and dicts;
`bool` fields accept booleans, the ints 0 and 1, and any string, and reject
other ints, `None`, lists and dicts. -/
def pydCompatible : InputType → PyValue → Bool
  | InputType.string, v =>
    match v with
    | PyValue.str _ => true
    | _ => false
  | InputType.number, v =>
    match v with
    | PyValue.int _ => true
    | PyValue.str _ => true
    | _ => false
  | InputType.bool, v =>
    match v with
    | PyValue.bool _ => true
    | PyValue.int n => n = 0 || n = 1
    | PyValue.str _ => true
    | _ => false

/-- Embedding of `Workflow._validate_inputs` (service.py lines 223-234): with
no declared inputs validation is skipped entirely; otherwise the generated
pydantic input model is instantiated, which rejects a missing required field
or an incompatible value with `ValueError('Invalid workflow inputs: ...')`. -/
def validateInputs (defs : List InputDef) (inputs : Ctx) : Except String Unit :=
  if defs.isEmpty then Except.ok ()
  else if defs.all (fun d =>
      match ctxLookup inputs d.name with
      | Option.none => !d.required
      | Option.some v => pydCompatible d.type v) then
    Except.ok ()
  else Except.error "Invalid workflow inputs: validation failed"

/-- The Python exception text carried by an uncaught formatting error. -/
def fmtErrorText : FmtError → String
  | FmtError.keyError => "KeyError"
  | FmtError.valueError => "ValueError: bad format string"
  | FmtError.indexError => "IndexError: positional replacement field"
  | FmtError.unsupported => "format string outside modelled fragment"

/-- The step loop of `Workflow.run` (service.py lines 429-444), from step
index `i` over the pending steps: resolve placeholders against the current
context, execute, append the result, persist the declared output, continue.
State threads the context and the stored (live) step list; the final
component is the terminating exception, if any — on a raise the Python loop
aborts and the local result list is discarded, so the returned result list is
exactly the results of the steps completed strictly before the failure. -/
def runLoop (env : Env) (wf : WorkflowConfig) :
    Ctx → List WorkflowStep → Nat → List WorkflowStep →
    List StepResult × Ctx × List WorkflowStep × Option String
  | ctx, stored, _, [] => ([], ctx, stored, Option.none)
  | ctx, stored, i, s :: rest =>
    match resolveStepC ctx s with
    | Except.error e => ([], ctx, stored, Option.some (fmtErrorText e))
    | Except.ok sc =>
      match executeStep env wf stored i sc.1 sc.2 with
      | (Except.error e, stored2) => ([], ctx, stored2, Option.some e)
      | (Except.ok r, stored2) =>
        let ctx2 := storeOutput env.jsonLoads ctx sc.1 r
        let out := runLoop env wf ctx2 stored2 (i + 1) rest
        (r :: out.1, out.2.1, out.2.2.1, out.2.2.2)

/-- Embedding of `Workflow.run` (service.py lines 414-457): validate the
caller inputs against the declared schema, initialize the context from them,
then iterate the steps.  Returns the collected step results, the final
context, the stored step list after the run, and the terminating exception
(if any). -/
def Workflow.run (env : Env) (wf : WorkflowConfig) (inputs : Ctx) :
    List StepResult × Ctx × List WorkflowStep × Option String :=
  match validateInputs wf.inputs_def inputs with
  | Except.error e => ([], [], wf.steps, Option.some e)
  | Except.ok _ => runLoop env wf inputs wf.steps 0 wf.steps

/-! ### Loading a workflow document (`src/schema/views.py`) -/

/-- The field names declared on `BaseWorkflowStep`. -/
def baseKeys : List String := ["description", "output", "timestamp", "tabId"]

/-- Parse an `Optional[str]` pydantic field: absent or `null` is `None`. -/
def getOptStr (fields : Ctx) (k : String) : Except String (Option String) :=
  match ctxLookup fields k with
  | Option.none => Except.ok Option.none
  | Option.some PyValue.none => Except.ok Option.none
  | Option.some (PyValue.str s) => Except.ok (Option.some s)
  | Option.some _ => Except.error (k ++ ": Input should be a valid string")

/-- Parse an `Optional[int]` pydantic field. -/
def getOptInt (fields : Ctx) (k : String) : Except String (Option Int) :=
  match ctxLookup fields k with
  | Option.none => Except.ok Option.none
  | Option.some PyValue.none => Except.ok Option.none
  | Option.some (PyValue.int n) => Except.ok (Option.some n)
  | Option.some _ => Except.error (k ++ ": Input should be a valid integer")

/-- Parse an `Optional[bool]` pydantic field with a non-`None` default. -/
def getOptBoolD (fields : Ctx) (k : String) (dflt : Option Bool) :
    Except String (Option Bool) :=
  match ctxLookup fields k with
  | Option.none => Except.ok dflt
  | Option.some PyValue.none => Except.ok Option.none
  | Option.some (PyValue.bool b) => Except.ok (Option.some b)
  | Option.some _ => Except.error (k ++ ": Input should be a valid boolean")

/-- Parse a required `str` pydantic field. -/
def getReqStr (fields : Ctx) (k : String) : Except String String :=
  match ctxLookup fields k with
  | Option.none => Except.error (k ++ ": Field required")
  | Option.some (PyValue.str s) => Except.ok s
  | Option.some _ => Except.error (k ++ ": Input should be a valid string")

/-- Parse a required `int` pydantic field. -/
def getReqInt (fields : Ctx) (k : String) : Except String Int :=
  match ctxLookup fields k with
  | Option.none => Except.error (k ++ ": Field required")
  | Option.some (PyValue.int n) => Except.ok n
  | Option.some _ => Except.error (k ++ ": Input should be a valid integer")

/-- Parse the `BaseWorkflowStep` fields of a step object; everything not
among the declared field names of the concrete step class is preserved as an
extra field (`model_config = \x7b"extra": "allow"\x7d`). -/
def parseBase (fields : Ctx) (declared : List String) : Except String BaseStepFields := do
  let d ← getOptStr fields "description"
  let o ← getOptStr fields "output"
  let ts ← getOptInt fields "timestamp"
  let tb ← getOptInt fields "tabId"
  Except.ok { description := d, output := o, timestamp := ts, tabId := tb,
              extra := fields.filter (fun p => !declared.contains p.1) }

/-- Parse one step object of a workflow document into the tagged union,
dispatching on the `type` literal (the pydantic union of step classes is
discriminated by the distinct `Literal` type fields). -/
def parseStep (v : PyValue) : Except String WorkflowStep :=
  match v with
  | PyValue.dict fields =>
    match ctxLookup fields "type" with
    | Option.some (PyValue.str t) =>
      if t = "agent" then do
        let b ← parseBase fields (baseKeys ++ ["type", "task", "max_steps"])
        let task ← getReqStr fields "task"
        let ms ← getOptInt fields "max_steps"
        Except.ok (WorkflowStep.agent b task ms)
      else if t = "navigation" then do
        let b ← parseBase fields (baseKeys ++ ["type", "url"])
        let url ← getReqStr fields "url"
        Except.ok (WorkflowStep.navigation b url)
      else if t = "click" then do
        let b ← parseBase fields
          (baseKeys ++ ["type", "cssSelector", "xpath", "elementTag", "elementText"])
        let css ← getReqStr fields "cssSelector"
        let x ← getOptStr fields "xpath"
        let tag ← getOptStr fields "elementTag"
        let txt ← getOptStr fields "elementText"
        Except.ok (WorkflowStep.click b css x tag txt)
      else if t = "input" then do
        let b ← parseBase fields
          (baseKeys ++ ["type", "cssSelector", "value", "xpath", "elementTag"])
        let css ← getReqStr fields "cssSelector"
        let val ← getReqStr fields "value"
        let x ← getOptStr fields "xpath"
        let tag ← getOptStr fields "elementTag"
        Except.ok (WorkflowStep.input b css val x tag)
      else if t = "select_change" then do
        let b ← parseBase fields
          (baseKeys ++ ["type", "cssSelector", "selectedText", "xpath", "elementTag"])
        let css ← getReqStr fields "cssSelector"
        let sel ← getReqStr fields "selectedText"
        let x ← getOptStr fields "xpath"
        let tag ← getOptStr fields "elementTag"
        Except.ok (WorkflowStep.select_change b css sel x tag)
      else if t = "key_press" then do
        let b ← parseBase fields
          (baseKeys ++ ["type", "cssSelector", "key", "xpath", "elementTag"])
        let css ← getReqStr fields "cssSelector"
        let k ← getReqStr fields "key"
        let x ← getOptStr fields "xpath"
        let tag ← getOptStr fields "elementTag"
        Except.ok (WorkflowStep.key_press b css k x tag)
      else if t = "scroll" then do
        let b ← parseBase fields (baseKeys ++ ["type", "scrollX", "scrollY"])
        let sx ← getReqInt fields "scrollX"
        let sy ← getReqInt fields "scrollY"
        Except.ok (WorkflowStep.scroll b sx sy)
      else if t = "extract_content" then do
        let b ← parseBase fields
          (baseKeys ++ ["type", "goal", "should_strip_link_urls"])
        let goal ← getReqStr fields "goal"
        let strip ← getOptBoolD fields "should_strip_link_urls" (Option.some false)
        Except.ok (WorkflowStep.extract_content b goal strip)
      else Except.error ("steps: no union variant matches type " ++ squote ++ t ++ squote)
    | _ => Except.error "steps: missing or non-string type discriminator"
  | _ => Except.error "steps: Input should be a valid dictionary"

/-- `WorkflowInputSchemaDefinition` of `src/schema/views.py`: a JSON-schema
style object with per-name property types and a list of required names. -/
structure WorkflowInputSchemaDefinition where
  type : String := "object"
  properties : List (String × String) := []
  required : List String := []
  deriving Repr, DecidableEq

/-- Parse one entry of `properties`: either a bare type literal or an object
`\x7b"type": <literal>\x7d`, the literal being `string|number|bool`. -/
def parsePropType (v : PyValue) : Except String String :=
  match v with
  | PyValue.str s =>
    if s = "string" || s = "number" || s = "bool" then Except.ok s
    else Except.error "input_schema: unsupported property type"
  | PyValue.dict fs =>
    match ctxLookup fs "type" with
    | Option.some (PyValue.str s) =>
      if s = "string" || s = "number" || s = "bool" then Except.ok s
      else Except.error "input_schema: unsupported property type"
    | _ => Except.error "input_schema: property detail missing type"
  | _ => Except.error "input_schema: invalid property"

/-- Parse all `properties` entries. -/
def parseProps : Ctx → Except String (List (String × String))
  | [] => Except.ok []
  | (k, v) :: rest => do
    let t ← parsePropType v
    let r ← parseProps rest
    Except.ok ((k, t) :: r)

/-- Parse every element of `required` as a string. -/
def parseStrList : List PyValue → Except String (List String)
  | [] => Except.ok []
  | PyValue.str s :: rest => (parseStrList rest).map (fun r => s :: r)
  | _ :: _ => Except.error "input_schema: required entries must be strings"

/-- Parse the optional `input_schema` object. -/
def parseInputSchema (v : PyValue) : Except String WorkflowInputSchemaDefinition :=
  match v with
  | PyValue.dict fs => do
    let ty ←
      match ctxLookup fs "type" with
      | Option.none => Except.ok "object"
      | Option.some (PyValue.str s) =>
        if s = "object" then Except.ok s
        else Except.error "input_schema: type must be the literal object"
      | Option.some _ => Except.error "input_schema: type must be the literal object"
    let props ←
      match ctxLookup fs "properties" with
      | Option.none => Except.ok []
      | Option.some (PyValue.dict ps) => parseProps ps
      | Option.some _ => Except.error "input_schema: properties must be an object"
    let req ←
      match ctxLookup fs "required" with
      | Option.none => Except.ok []
      | Option.some (PyValue.list l) => parseStrList l
      | Option.some _ => Except.error "input_schema: required must be a list"
    Except.ok { type := ty, properties := props, required := req }
  | _ => Except.error "input_schema: Input should be a valid dictionary"

/-- The parsed top-level workflow document (`WorkflowDefinitionSchema` of
`src/schema/views.py`). -/
structure WorkflowDefinitionSchema where
  name : String
  description : String
  version : String
  input_schema : Option WorkflowInputSchemaDefinition := Option.none
  steps : List WorkflowStep

/-- Parse every element of `steps`. -/
def parseSteps : List PyValue → Except String (List WorkflowStep)
  | [] => Except.ok []
  | v :: vs => do
    let s ← parseStep v
    let rest ← parseSteps vs
    Except.ok (s :: rest)

/-- Parse the `input_schema` top-level field: absent or `null` is `None`. -/
def parseOptInputSchema (fields : Ctx) :
    Except String (Option WorkflowInputSchemaDefinition) :=
  match ctxLookup fields "input_schema" with
  | Option.none => Except.ok Option.none
  | Option.some PyValue.none => Except.ok Option.none
  | Option.some w => (parseInputSchema w).map Option.some

/-- Embedding of validating a workflow document with
`WorkflowDefinitionSchema(**data)`: the top-level fields `name`,
`description`, `version` are required strings, `input_schema` is optional,
and `steps` is a required list with `min_length=1` whose members parse as
steps. -/
def parseWorkflowDefinition (v : PyValue) : Except String WorkflowDefinitionSchema :=
  match v with
  | PyValue.dict fields => do
    let name ← getReqStr fields "name"
    let description ← getReqStr fields "description"
    let version ← getReqStr fields "version"
    let ischema ← parseOptInputSchema fields
    match ctxLookup fields "steps" with
    | Option.none => Except.error "steps: Field required"
    | Option.some (PyValue.list l) =>
      if l.isEmpty then Except.error "steps: List should have at least 1 item"
      else do
        let steps ← parseSteps l
        Except.ok { name := name, description := description, version := version,
                    input_schema := ischema, steps := steps }
    | Option.some _ => Except.error "steps: Input should be a valid list"
  | _ => Except.error "Input should be a valid dictionary"

/-! ### Vocabulary for stating the claims, and concrete fixtures -/

/-- Scanner collecting the replacement-field texts of a string: everything
between an opening brace and the next closing brace.  Used only to *state*
which context keys a string still references. -/
def placeholderFieldsGo : Option (List Char) → List Char → List (List Char)
  | Option.none, [] => []
  | Option.none, c :: cs =>
    if c = lbrace then placeholderFieldsGo (Option.some []) cs
    else placeholderFieldsGo Option.none cs
  | Option.some _, [] => []
  | Option.some acc, c :: cs =>
    if c = rbrace then acc.reverse :: placeholderFieldsGo Option.none cs
    else placeholderFieldsGo (Option.some (c :: acc)) cs

/-- The replacement-field texts occurring in a string. -/
def placeholderFields (s : String) : List (List Char) :=
  placeholderFieldsGo Option.none s.data

/-- A character allowed in a plain placeholder identifier. -/
def isIdentChar (c : Char) : Bool := c.isAlpha || c.isDigit || c = '_'

/-- A plain identifier: nonempty, made of identifier characters, not starting
with a digit (so `str.format` treats it as a keyword, not a position). -/
def isPlainIdent (s : String) : Bool :=
  match s.data with
  | [] => false
  | c :: _ => !c.isDigit && s.data.all isIdentChar

/-- The string `\x7bk\x7d`: a single replacement field named `k`. -/
def mkPlaceholder (k : String) : String :=
  String.mk (lbrace :: (k.data ++ [rbrace]))

/-- A deterministic step fails when the dispatcher raises, or returns an
`ActionResult` whose `error` field holds a truthy (non-empty) message — the
condition line 347 tests with `result.error`. -/
def failsDeterministically (env : Env) (s : WorkflowStep) : Prop :=
  (∃ e, env.controllerAct s = Except.error e) ∨
  (∃ r msg, env.controllerAct s = Except.ok r ∧ r.error = Option.some msg ∧ msg ≠ "")

/-- Fixture: oracles where the dispatcher always raises, the agent always
returns an empty history, and JSON never parses. -/
def envFail : Env :=
  { controllerAct := fun _ => Except.error "boom",
    agentRun := fun _ _ => Except.ok { history := [] },
    jsonLoads := fun _ => Option.none }

/-- Fixture: oracles where the dispatcher always returns a clean result. -/
def envOk : Env :=
  { controllerAct := fun _ => Except.ok {},
    agentRun := fun _ _ => Except.ok { history := [] },
    jsonLoads := fun _ => Option.none }

/-- Fixture: a navigation step with no placeholders and no output key. -/
def stepNavW : WorkflowStep :=
  WorkflowStep.navigation {} "https://example.com"

/-- Fixture: a navigation step declaring output key `k`. -/
def stepNavOut : WorkflowStep :=
  WorkflowStep.navigation { output := Option.some "k" } "https://example.com"

/-- Fixture: an agentic step with a brace-free task. -/
def stepAgentW : WorkflowStep :=
  WorkflowStep.agent {} "do the thing" Option.none

/-! ## Theorems -/

/-- C10: for every agentic step, the step budget actually used is 5 not only
when `max_steps` is omitted but also when it is explicitly declared as `0`:
any falsy declared budget (`None` or `0`) is replaced by the default 5, and
the effective budget handed to the agent is never 0. -/
theorem C10_falsy_max_steps_defaults_to_five (env : Env) (wf : WorkflowConfig)
    (task : String) (m : Option Int) (hllm : wf.hasLLM = true) :
    ((m = Option.none ∨ m = Option.some 0) → effectiveMaxSteps m = 5) ∧
    effectiveMaxSteps m ≠ 0 ∧
    runAgentStep env wf task m = env.agentRun task (effectiveMaxSteps m) := by
  refine ⟨?_, ?_, ?_⟩
  · rintro (rfl | rfl) <;> simp [effectiveMaxSteps]
  · cases m with
    | none => simp [effectiveMaxSteps]
    | some v => by_cases hv : v = 0 <;> simp [effectiveMaxSteps, hv]
  · simp [runAgentStep, hllm]

theorem C10_witness :
    ((Option.some (0 : Int) = Option.none ∨ Option.some (0 : Int) = Option.some 0) →
      effectiveMaxSteps (Option.some 0) = 5) ∧
    effectiveMaxSteps (Option.some 0) ≠ 0 ∧
    runAgentStep envFail { steps := [stepNavW] } "t" (Option.some 0) =
      envFail.agentRun "t" (effectiveMaxSteps (Option.some 0)) :=
  C10_falsy_max_steps_defaults_to_five envFail { steps := [stepNavW] } "t" (Option.some 0) rfl

/-- `contains` on character lists is membership. -/
theorem charContains_iff {l : List Char} {a : Char} : l.contains a = true ↔ a ∈ l :=
  List.elem_iff

/-- An identifier character is not a brace and is a legal field-name
character. -/
theorem identChar_props {c : Char} (h : isIdentChar c = true) :
    c ≠ lbrace ∧ c ≠ rbrace ∧ isNameChar c = true := by
  refine ⟨?_, ?_, ?_⟩
  · intro hc; subst hc; exact absurd h (by decide)
  · intro hc; subst hc; exact absurd h (by decide)
  · cases hb : (c = '.' || c = '[' || c = '!' || c = ':' : Bool) with
    | false => simp [isNameChar, hb]
    | true =>
      simp only [Bool.or_eq_true, decide_eq_true_eq] at hb
      rcases hb with ((h1 | h1) | h1) | h1 <;> (subst h1; exact absurd h (by decide))

/-- Evaluating the field of a plain identifier absent from the context raises
`KeyError`. -/
theorem evalField_missing_ident (ctx : Ctx) (k : String)
    (hid : isPlainIdent k = true) (hlk : ctxLookup ctx k = Option.none) :
    evalField ctx k.data = Except.error FmtError.keyError := by
  obtain ⟨c0, kr, hk⟩ : ∃ c0 kr, k.data = c0 :: kr := by
    rcases hd : k.data with _ | ⟨c0, kr⟩
    · simp only [isPlainIdent, hd] at hid
      exact Bool.noConfusion hid
    · exact ⟨c0, kr, rfl⟩
  simp only [isPlainIdent, hk, Bool.and_eq_true_iff] at hid
  obtain ⟨hd0, hall⟩ := hid
  have hallmem : ∀ c ∈ k.data, isIdentChar c = true := by
    rw [hk]; exact List.all_eq_true.mp hall
  have hdig0 : c0.isDigit = false := by
    cases hdc : c0.isDigit with
    | false => rfl
    | true => rw [hdc] at hd0; exact absurd hd0 (by decide)
  have hnol : k.data.contains lbrace = false := by
    cases hcon : k.data.contains lbrace with
    | false => rfl
    | true => exact absurd (hallmem _ (charContains_iff.mp hcon)) (by decide)
  have hname : k.data.takeWhile isNameChar = k.data :=
    List.takeWhile_eq_self_iff.mpr (fun c hc => (identChar_props (hallmem c hc)).2.2)
  have hne : k.data.isEmpty = false := by rw [hk]; rfl
  have hnotdig : k.data.all Char.isDigit = false := by
    rw [hk]; simp [List.all_cons, hdig0]
  have hmk : String.mk k.data = k := rfl
  simp only [evalField, hnol, hname, hne, hnotdig, hmk, hlk,
    Bool.false_eq_true, if_false]

/-- Scanning a field made of identifier characters up to its closing brace
evaluates the accumulated field and stops. -/
theorem pyFormatGo_inField_ident (ctx : Ctx) (acc rest : List Char)
    (h : ∀ c ∈ rest, isIdentChar c = true) :
    pyFormatGo ctx (FmtMode.inField acc) (rest ++ [rbrace]) =
      match evalField ctx (acc.reverse ++ rest) with
      | Except.error e => Except.error e
      | Except.ok sub => Except.ok sub.data := by
  induction rest generalizing acc with
  | nil =>
    simp only [List.nil_append, List.append_nil, pyFormatGo, if_pos rfl]
    cases hev : evalField ctx acc.reverse with
    | error e => rfl
    | ok sub => simp [pyFormatGo]
  | cons c cs ih =>
    have hc := identChar_props (h c (by simp))
    simp only [List.cons_append, pyFormatGo, if_neg hc.2.1]
    rw [show cs.append [rbrace] = cs ++ [rbrace] from rfl,
      ih (c :: acc) (fun x hx => h x (by simp [hx]))]
    simp [List.append_assoc]

/-- Formatting the single-field string `\x7bk\x7d` for a plain identifier `k`
absent from the context raises `KeyError`. -/
theorem pyFormat_missing_ident (ctx : Ctx) (k : String)
    (hid : isPlainIdent k = true) (hlk : ctxLookup ctx k = Option.none) :
    pyFormat ctx (mkPlaceholder k) = Except.error FmtError.keyError := by
  obtain ⟨c0, kr, hk⟩ : ∃ c0 kr, k.data = c0 :: kr := by
    rcases hd : k.data with _ | ⟨c0, kr⟩
    · simp only [isPlainIdent, hd] at hid
      exact Bool.noConfusion hid
    · exact ⟨c0, kr, rfl⟩
  have hallmem : ∀ c ∈ k.data, isIdentChar c = true := by
    simp only [isPlainIdent, hk, Bool.and_eq_true_iff] at hid
    rw [hk]
    exact List.all_eq_true.mp hid.2
  have hc0 := identChar_props (hallmem c0 (by rw [hk]; simp))
  have hstep : pyFormatGo ctx FmtMode.normal ((mkPlaceholder k).data) =
      Except.error FmtError.keyError := by
    have hdata : (mkPlaceholder k).data = lbrace :: (k.data ++ [rbrace]) := rfl
    rw [hdata, hk]
    have h1 : pyFormatGo ctx FmtMode.normal (lbrace :: (c0 :: kr ++ [rbrace])) =
        pyFormatGo ctx FmtMode.afterL (c0 :: kr ++ [rbrace]) := by
      simp [pyFormatGo]
    have h2 : pyFormatGo ctx FmtMode.afterL (c0 :: (kr ++ [rbrace])) =
        pyFormatGo ctx (FmtMode.inField [c0]) (kr ++ [rbrace]) := by
      simp [pyFormatGo, hc0.1, hc0.2.1]
    rw [show ((c0 :: kr : List Char) ++ [rbrace]) = c0 :: (kr ++ [rbrace]) from rfl] at h1 ⊢
    rw [h1, h2,
      pyFormatGo_inField_ident ctx [c0] kr (fun x hx => hallmem x (by rw [hk]; simp [hx]))]
    rw [show (([c0] : List Char).reverse ++ kr) = k.data from by rw [hk]; rfl,
      evalField_missing_ident ctx k hid hlk]
  simp [pyFormat, hstep]

/-- C4 (amended): resolution of the single missing-key placeholder `\x7bk\x7d`
returns the whole string unchanged without raising, and resolution is the
identity on every string lacking an opening or a closing brace.  (As stated
the claim is false: a string such as `\x7d\x7b` contains no `\x7b...\x7d`
pattern yet contains both braces, so the resolver hands it to `format`, which
raises `ValueError` instead of returning it.) -/
theorem C4_missing_key_passthrough_and_braceless_identity :
    (∀ (ctx : Ctx) (k : String), isPlainIdent k = true →
      ctxLookup ctx k = Option.none →
      resolvePlaceholdersStr ctx (mkPlaceholder k) = Except.ok (mkPlaceholder k)) ∧
    (∀ (ctx : Ctx) (s : String),
      (hasChar s lbrace = false ∨ hasChar s rbrace = false) →
      resolvePlaceholdersStr ctx s = Except.ok s) := by
  constructor
  · intro ctx k hid hlk
    have hl : hasChar (mkPlaceholder k) lbrace = true := by
      rw [hasChar]
      exact charContains_iff.mpr (by simp [mkPlaceholder])
    have hr : hasChar (mkPlaceholder k) rbrace = true := by
      rw [hasChar]
      exact charContains_iff.mpr (by simp [mkPlaceholder])
    simp [resolvePlaceholdersStr, resolveStrC, hl, hr,
      pyFormat_missing_ident ctx k hid hlk, Except.map]
  · intro ctx s h
    rw [resolvePlaceholdersStr, resolveStrC]
    rcases h with h | h <;> simp [h, Except.map]

theorem C4_witness :
    resolvePlaceholdersStr [("other", PyValue.str "v")] (mkPlaceholder "k") =
      Except.ok (mkPlaceholder "k") ∧
    resolvePlaceholdersStr [("k", PyValue.str "v")] "plain text" =
      Except.ok "plain text" :=
  ⟨C4_missing_key_passthrough_and_braceless_identity.1 [("other", PyValue.str "v")] "k"
      (by decide) rfl,
   C4_missing_key_passthrough_and_braceless_identity.2 [("k", PyValue.str "v")] "plain text"
      (Or.inl rfl)⟩

/-- C4 counterexample: `\x7d\x7b` contains no `\x7b...\x7d` placeholder
pattern (its field list is empty), yet resolution raises `ValueError` instead
of returning the string unchanged — refuting the claimed identity on
pattern-free strings. -/
theorem C4_counterexample :
    placeholderFields (String.mk [rbrace, lbrace]) = [] ∧
    resolvePlaceholdersStr [] (String.mk [rbrace, lbrace]) =
      Except.error FmtError.valueError ∧
    resolvePlaceholdersStr [] (String.mk [rbrace, lbrace]) ≠
      Except.ok (String.mk [rbrace, lbrace]) :=
  ⟨rfl, rfl, by decide⟩

/-- C8 (amended): resolution is idempotent once its result contains no
opening or no closing brace, and more generally whenever formatting the
result raises `KeyError` (an unresolved placeholder for a missing key aborts
the whole substitution and the string is returned unchanged).  (As stated the
claim is false: the result can contain placeholders for *present* keys —
e.g. produced from escaped braces — which a second resolution substitutes.) -/
theorem C8_idempotent_on_stable_results (ctx : Ctx) (s t : String)
    (hres : resolvePlaceholdersStr ctx s = Except.ok t)
    (hstable : (hasChar t lbrace = false ∨ hasChar t rbrace = false) ∨
      pyFormat ctx t = Except.error FmtError.keyError) :
    resolvePlaceholdersStr ctx t = Except.ok t := by
  clear hres
  rw [resolvePlaceholdersStr, resolveStrC]
  rcases hstable with h | h
  · rcases h with h | h <;> simp [h, Except.map]
  · by_cases hb : hasChar t lbrace && hasChar t rbrace
    · simp [hb, h, Except.map]
    · simp [hb, Except.map]

theorem C8_witness :
    resolvePlaceholdersStr [("b", PyValue.str "x")] "b" = Except.ok "b" :=
  C8_idempotent_on_stable_results [("b", PyValue.str "x")] "b" "b" rfl
    (Or.inl (Or.inl rfl))

/-- C8 counterexample: with context `\x7bb: "x"\x7d`, resolving `\x7b\x7bb\x7d\x7d`
yields `\x7bb\x7d`, whose only placeholder references the *present* key `b` —
so no unresolved placeholder references a missing key — yet resolving again
yields `x`, not `\x7bb\x7d`: idempotence fails. -/
theorem C8_counterexample :
    resolvePlaceholdersStr [("b", PyValue.str "x")]
        (String.mk [lbrace, lbrace, 'b', rbrace, rbrace]) =
      Except.ok (String.mk [lbrace, 'b', rbrace]) ∧
    (placeholderFields (String.mk [lbrace, 'b', rbrace])).all
        (fun f => (ctxLookup [("b", PyValue.str "x")] (String.mk f)).isSome) = true ∧
    resolvePlaceholdersStr [("b", PyValue.str "x")] (String.mk [lbrace, 'b', rbrace]) =
      Except.ok "x" ∧
    String.mk [lbrace, 'b', rbrace] ≠ "x" :=
  ⟨rfl, rfl, rfl, by decide⟩

/-- C3 (amended): for a step declaring a (non-empty) output key whose result
is an agent history, the extractor scans backward through the final history
item's result entries for the last one whose textual content is non-null; if
that content is also non-empty it stores its JSON-parse (or the raw text on
parse failure), and in every other case — no history item, no non-null entry,
or the found content empty — it stores `None` under the key, *overwriting*
any prior context value.  (As stated the claim is false: the write is
unconditional, so when nothing usable is found a `None` placeholder *is*
written instead of leaving the prior value untouched; and the backward scan
keys on non-null, not non-empty, content.) -/
theorem C3_agent_output_extraction :
    (∀ (jl : String → Option PyValue) (ctx : Ctx) (step : WorkflowStep) (key : String)
       (hist : List AgentHistory) (last : AgentHistory) (xs ys : List ActionResult)
       (r : ActionResult) (c : String),
       step.output = Option.some key → key ≠ "" →
       hist.getLast? = Option.some last →
       last.result = xs ++ r :: ys →
       r.extracted_content = Option.some c → c ≠ "" →
       (∀ r2 ∈ ys, r2.extracted_content = Option.none) →
       storeOutput jl ctx step (StepResult.agent { history := hist }) =
         ctxInsert ctx key ((jl c).getD (PyValue.str c))) ∧
    (∀ (jl : String → Option PyValue) (ctx : Ctx) (step : WorkflowStep) (key : String)
       (hist : List AgentHistory) (last : AgentHistory) (xs ys : List ActionResult)
       (r : ActionResult),
       step.output = Option.some key → key ≠ "" →
       hist.getLast? = Option.some last →
       last.result = xs ++ r :: ys →
       r.extracted_content = Option.some "" →
       (∀ r2 ∈ ys, r2.extracted_content = Option.none) →
       storeOutput jl ctx step (StepResult.agent { history := hist }) =
         ctxInsert ctx key PyValue.none) ∧
    (∀ (jl : String → Option PyValue) (ctx : Ctx) (step : WorkflowStep) (key : String)
       (hist : List AgentHistory) (last : AgentHistory),
       step.output = Option.some key → key ≠ "" →
       hist.getLast? = Option.some last →
       (∀ r2 ∈ last.result, r2.extracted_content = Option.none) →
       storeOutput jl ctx step (StepResult.agent { history := hist }) =
         ctxInsert ctx key PyValue.none) ∧
    (∀ (jl : String → Option PyValue) (ctx : Ctx) (step : WorkflowStep) (key : String),
       step.output = Option.some key → key ≠ "" →
       storeOutput jl ctx step (StepResult.agent { history := [] }) =
         ctxInsert ctx key PyValue.none) := by
  refine ⟨?_, ?_, ?_, ?_⟩
  · intro jl ctx step key hist last xs ys r c hkey hk hlast hres hc hcne hys
    have hfind : last.result.reverse.find? (fun r => r.extracted_content.isSome) =
        Option.some r := by
      rw [hres]
      simp only [List.reverse_append, List.reverse_cons]
      rw [List.append_assoc, List.find?_append]
      have h1 : ys.reverse.find? (fun r => r.extracted_content.isSome) = Option.none :=
        List.find?_eq_none.mpr (fun x hx => by
          simp [hys x (List.mem_reverse.mp hx)])
      rw [h1]
      simp [List.find?_append, hc]
    simp only [storeOutput, hkey, if_neg hk, hlast, hfind, hc, if_neg hcne]
    cases hjl : jl c <;> simp [hjl, Option.getD]
  · intro jl ctx step key hist last xs ys r hkey hk hlast hres hc hys
    have hfind : last.result.reverse.find? (fun r => r.extracted_content.isSome) =
        Option.some r := by
      rw [hres]
      simp only [List.reverse_append, List.reverse_cons]
      rw [List.append_assoc, List.find?_append]
      have h1 : ys.reverse.find? (fun r => r.extracted_content.isSome) = Option.none :=
        List.find?_eq_none.mpr (fun x hx => by
          simp [hys x (List.mem_reverse.mp hx)])
      rw [h1]
      simp [List.find?_append, hc]
    simp only [storeOutput, hkey, if_neg hk, hlast, hfind, hc]
    rfl
  · intro jl ctx step key hist last hkey hk hlast hys
    have hfind : last.result.reverse.find? (fun r => r.extracted_content.isSome) =
        Option.none :=
      List.find?_eq_none.mpr (fun x hx => by simp [hys x (List.mem_reverse.mp hx)])
    simp only [storeOutput, hkey, if_neg hk, hlast, hfind]
  · intro jl ctx step key hkey hk
    simp only [storeOutput, hkey, if_neg hk, List.getLast?]

theorem C3_witness :
    storeOutput (fun _ => Option.none) [] stepNavOut
        (StepResult.agent { history := [{ result :=
          [{ extracted_content := Option.some "42" }] }] }) =
      ctxInsert [] "k" (((fun _ => (Option.none : Option PyValue)) "42").getD
        (PyValue.str "42")) :=
  C3_agent_output_extraction.1 (fun _ => Option.none) [] stepNavOut "k"
    [{ result := [{ extracted_content := Option.some "42" }] }]
    { result := [{ extracted_content := Option.some "42" }] }
    [] [] { extracted_content := Option.some "42" } "42"
    rfl (by decide) rfl rfl rfl (by decide) (by simp)

/-- C3 counterexample: the context already binds `k` to `"old"`; the step
declares output key `k` and the agent history's final item has no result
entry with textual content.  The claim says nothing is stored and the prior
value stays; the code overwrites it with a `None` placeholder. -/
theorem C3_counterexample :
    storeOutput (fun _ => Option.none) [("k", PyValue.str "old")] stepNavOut
        (StepResult.agent { history := [{ result := [] }] }) =
      [("k", PyValue.none)] ∧
    ctxLookup [("k", PyValue.none)] "k" ≠
      ctxLookup [("k", PyValue.str "old")] "k" := by
  refine ⟨rfl, ?_⟩
  intro h
  simp [ctxLookup, List.find?] at h

/-- C6: inputs are validated before any step executes — a validation failure
makes `run` raise with an empty result list and an untouched context; a
required input that is absent, or a provided input incompatible with its
declared type, fails validation; and a workflow with zero declared inputs
accepts the empty input mapping and proceeds straight to the step loop. -/
theorem C6_inputs_validated_before_any_step :
    (∀ (env : Env) (wf : WorkflowConfig) (inputs : Ctx) (e : String),
       validateInputs wf.inputs_def inputs = Except.error e →
       Workflow.run env wf inputs = ([], [], wf.steps, Option.some e)) ∧
    (∀ (defs : List InputDef) (inputs : Ctx) (d : InputDef),
       d ∈ defs → d.required = true → ctxLookup inputs d.name = Option.none →
       ∃ e, validateInputs defs inputs = Except.error e) ∧
    (∀ (defs : List InputDef) (inputs : Ctx) (d : InputDef) (v : PyValue),
       d ∈ defs → ctxLookup inputs d.name = Option.some v →
       pydCompatible d.type v = false →
       ∃ e, validateInputs defs inputs = Except.error e) ∧
    (∀ (env : Env) (wf : WorkflowConfig) (inputs : Ctx), wf.inputs_def = [] →
       validateInputs wf.inputs_def inputs = Except.ok () ∧
       Workflow.run env wf inputs = runLoop env wf inputs wf.steps 0 wf.steps) := by
  refine ⟨?_, ?_, ?_, ?_⟩
  · intro env wf inputs e hv
    simp [Workflow.run, hv]
  · intro defs inputs d hd hreq hlk
    refine ⟨"Invalid workflow inputs: validation failed", ?_⟩
    have hne : defs.isEmpty = false := by
      cases defs
      · simp at hd
      · rfl
    have hallf : defs.all (fun d =>
        match ctxLookup inputs d.name with
        | Option.none => !d.required
        | Option.some v => pydCompatible d.type v) = false := by
      cases hcall : defs.all (fun d =>
          match ctxLookup inputs d.name with
          | Option.none => !d.required
          | Option.some v => pydCompatible d.type v) with
      | false => rfl
      | true =>
        have := List.all_eq_true.mp hcall d hd
        rw [hlk] at this
        simp only [hreq] at this
        exact absurd this (by decide)
    simp [validateInputs, hne, hallf]
  · intro defs inputs d v hd hlk hbad
    refine ⟨"Invalid workflow inputs: validation failed", ?_⟩
    have hne : defs.isEmpty = false := by
      cases defs
      · simp at hd
      · rfl
    have hallf : defs.all (fun d =>
        match ctxLookup inputs d.name with
        | Option.none => !d.required
        | Option.some v => pydCompatible d.type v) = false := by
      cases hcall : defs.all (fun d =>
          match ctxLookup inputs d.name with
          | Option.none => !d.required
          | Option.some v => pydCompatible d.type v) with
      | false => rfl
      | true =>
        have := List.all_eq_true.mp hcall d hd
        simp only [hlk] at this
        rw [hbad] at this
        exact absurd this (by decide)
    simp [validateInputs, hne, hallf]
  · intro env wf inputs h
    constructor
    · simp [validateInputs, h]
    · simp [Workflow.run, validateInputs, h]

theorem C6_witness :
    Workflow.run envOk
        { steps := [stepNavW],
          inputs_def := [{ name := "model", type := InputType.string, required := true }] }
        [] =
      ([], [], [stepNavW], Option.some "Invalid workflow inputs: validation failed") ∧
    (∃ e, validateInputs
        [{ name := "model", type := InputType.string, required := true }] [] =
      Except.error e) ∧
    validateInputs ([] : List InputDef) [] = Except.ok () ∧
    Workflow.run envOk { steps := [stepNavW] } [] =
      runLoop envOk { steps := [stepNavW] } [] [stepNavW] 0 [stepNavW] := by
  refine ⟨?_, ?_, ?_, ?_⟩
  · exact C6_inputs_validated_before_any_step.1 envOk
      { steps := [stepNavW],
        inputs_def := [{ name := "model", type := InputType.string, required := true }] }
      [] _ rfl
  · exact C6_inputs_validated_before_any_step.2.1
      [{ name := "model", type := InputType.string, required := true }] []
      { name := "model", type := InputType.string, required := true } (by simp) rfl rfl
  · exact (C6_inputs_validated_before_any_step.2.2.2 envOk { steps := [stepNavW] } [] rfl).1
  · exact (C6_inputs_validated_before_any_step.2.2.2 envOk { steps := [stepNavW] } [] rfl).2

/-- When the loop terminates without an exception it executed (and collected
a result for) every pending step. -/
theorem runLoop_none_length (env : Env) (wf : WorkflowConfig) :
    ∀ (pending : List WorkflowStep) (ctx : Ctx) (stored : List WorkflowStep) (i : Nat),
    (runLoop env wf ctx stored i pending).2.2.2 = Option.none →
    (runLoop env wf ctx stored i pending).1.length = pending.length := by
  intro pending
  induction pending with
  | nil => intro ctx stored i _; rfl
  | cons s rest ih =>
    intro ctx stored i h
    cases hres : resolveStepC ctx s with
    | error e => rw [runLoop, hres] at h; exact absurd h (by simp)
    | ok sc =>
      cases hex : executeStep env wf stored i sc.1 sc.2 with
      | mk res stored2 =>
        cases res with
        | error e =>
          simp only [runLoop, hres, hex] at h
          exact Option.noConfusion h
        | ok r =>
          simp only [runLoop, hres, hex] at h ⊢
          simp only [List.length_cons]
          rw [ih _ _ _ h]

/-- C7 (refutation support): the embedded `Workflow.run` — whose signature,
like the source's, carries no cancellation signal — executes every declared
step whenever no exception terminates the run: there is no cancellation
checkpoint at which it could stop early. -/
theorem C7_run_has_no_cancellation_checkpoint (env : Env) (wf : WorkflowConfig)
    (inputs : Ctx)
    (hok : (Workflow.run env wf inputs).2.2.2 = Option.none) :
    (Workflow.run env wf inputs).1.length = wf.steps.length := by
  cases hv : validateInputs wf.inputs_def inputs with
  | error e =>
    simp only [Workflow.run, hv] at hok
    exact Option.noConfusion hok
  | ok u =>
    simp only [Workflow.run, hv] at hok ⊢
    exact runLoop_none_length env wf wf.steps inputs wf.steps 0 hok

theorem C7_witness :
    (Workflow.run envOk { steps := [stepNavW] } []).1.length =
      ({ steps := [stepNavW] } : WorkflowConfig).steps.length :=
  C7_run_has_no_cancellation_checkpoint envOk { steps := [stepNavW] } [] rfl

/-- A successful `Except` bind factors through a successful first component. -/
theorem except_bind_ok {ε α β : Type} {x : Except ε α} {f : α → Except ε β} {b : β}
    (h : x >>= f = Except.ok b) : ∃ a, x = Except.ok a ∧ f a = Except.ok b := by
  cases x with
  | error e =>
    rw [show ((Except.error e : Except ε α) >>= f : Except ε β) = Except.error e from rfl] at h
    exact Except.noConfusion h
  | ok a =>
    refine ⟨a, rfl, ?_⟩
    rwa [show ((Except.ok a : Except ε α) >>= f : Except ε β) = f a from rfl] at h

/-- Binding after a raise propagates the raise. -/
theorem except_error_bind {ε α β : Type} (e : ε) (f : α → Except ε β) :
    (Except.error e : Except ε α) >>= f = Except.error e := rfl

/-- Binding after a success applies the continuation. -/
theorem except_ok_bind {ε α β : Type} (a : α) (f : α → Except ε β) :
    (Except.ok a : Except ε α) >>= f = f a := rfl

/-- Placeholder resolution never changes the kind of a step: the resolved
copy routes to the same branch of the dispatcher. -/
theorem resolveStepC_isAgent {ctx : Ctx} {s s' : WorkflowStep} {ch : Bool}
    (h : resolveStepC ctx s = Except.ok (s', ch)) : s'.isAgent = s.isAgent := by
  cases s <;>
    · simp only [resolveStepC] at h
      repeat obtain ⟨_, _, h⟩ := except_bind_ok h
      rw [Except.ok.injEq, Prod.mk.injEq] at h
      obtain ⟨h1, _⟩ := h
      subst h1
      rfl

/-- A non-agentic resolved step runs the deterministic branch and leaves the
stored step list untouched. -/
theorem executeStep_not_agent {env : Env} {wf : WorkflowConfig}
    {stored : List WorkflowStep} {i : Nat} {s : WorkflowStep} {changed : Bool}
    (h : s.isAgent = false) :
    executeStep env wf stored i s changed = (detExec env wf stored i s, stored) := by
  cases s
  · exact absurd h (by simp [WorkflowStep.isAgent])
  all_goals rfl

/-- A deterministic failure (raise, or error-carrying result) enters the
fallback path of `_execute_step` with some diagnostic message. -/
theorem detExec_failure {env : Env} (wf : WorkflowConfig)
    (stored : List WorkflowStep) (i : Nat) {s : WorkflowStep}
    (hfail : failsDeterministically env s) :
    ∃ msg, detExec env wf stored i s = detFallback env wf stored i s msg := by
  rcases hfail with ⟨e, he⟩ | ⟨r, msg, hr, hmsg, hne⟩
  · exact ⟨"Deterministic action " ++ squote ++ s.type ++ squote ++ " failed: " ++ e,
      by simp only [detExec, runDeterministicStep, he]⟩
  · exact ⟨"Deterministic action " ++ s.type ++ " failed: " ++ msg,
      by simp only [detExec, runDeterministicStep, hr, hmsg, if_neg hne]⟩

/-- With fallback disabled or no LLM configured, the fallback path raises. -/
theorem detFallback_aborts (env : Env) {wf : WorkflowConfig}
    (stored : List WorkflowStep) (i : Nat) (s : WorkflowStep) (msg : String)
    (h : wf.fallback_to_agent = false ∨ wf.hasLLM = false) :
    ∃ e, detFallback env wf stored i s msg = Except.error e := by
  rcases h with h | h
  · cases hllm : wf.hasLLM with
    | false =>
      exact ⟨"Cannot fall back to agent: LLM instance required.",
        by simp [detFallback, hllm]⟩
    | true =>
      exact ⟨"Deterministic step " ++ toString (i + 1) ++ " (" ++ s.type ++
          ") failed: " ++ msg,
        by simp [detFallback, hllm, h]⟩
  · exact ⟨"Cannot fall back to agent: LLM instance required.",
      by simp [detFallback, h]⟩

/-- With fallback enabled and an LLM configured, the fallback path is exactly
an agent run on the synthesized fallback task with budget 5. -/
theorem detFallback_invokes_agent {env : Env} {wf : WorkflowConfig}
    {stored : List WorkflowStep} {i : Nat} {s : WorkflowStep} {msg : String}
    (hllm : wf.hasLLM = true) (hfb : wf.fallback_to_agent = true) :
    detFallback env wf stored i s msg =
      (env.agentRun (fallbackTask stored i s msg) 5).map StepResult.agent := by
  simp [detFallback, fallbackToAgent, runAgentStep, hllm, hfb, effectiveMaxSteps]

/-- Splitting the step loop after a successfully executed prefix. -/
theorem runLoop_append_ok (env : Env) (wf : WorkflowConfig) :
    ∀ (xs : List WorkflowStep) (ctx : Ctx) (stored : List WorkflowStep) (i : Nat)
      (ys : List WorkflowStep) (rs : List StepResult) (c : Ctx)
      (st : List WorkflowStep),
    runLoop env wf ctx stored i xs = (rs, c, st, Option.none) →
    runLoop env wf ctx stored i (xs ++ ys) =
      (rs ++ (runLoop env wf c st (i + xs.length) ys).1,
       (runLoop env wf c st (i + xs.length) ys).2) := by
  intro xs
  induction xs with
  | nil =>
    intro ctx stored i ys rs c st h
    simp only [runLoop, Prod.mk.injEq] at h
    obtain ⟨h1, h2, h3, _⟩ := h
    subst h1; subst h2; subst h3
    simp only [List.nil_append, List.length_nil, Nat.add_zero]
  | cons x xs ih =>
    intro ctx stored i ys rs c st h
    cases hres : resolveStepC ctx x with
    | error e =>
      simp only [runLoop, hres, Prod.mk.injEq] at h
      exact absurd h.2.2.2 (by simp)
    | ok sc =>
      cases hex : executeStep env wf stored i sc.1 sc.2 with
      | mk res stored2 =>
        cases res with
        | error e =>
          simp only [runLoop, hres, hex, Prod.mk.injEq] at h
          exact absurd h.2.2.2 (by simp)
        | ok r =>
          simp only [runLoop, hres, hex, Prod.mk.injEq] at h
          obtain ⟨h1, h2, h3, h4⟩ := h
          have hx : runLoop env wf (storeOutput env.jsonLoads ctx sc.1 r) stored2
              (i + 1) xs =
              ((runLoop env wf (storeOutput env.jsonLoads ctx sc.1 r) stored2
                (i + 1) xs).1, c, st, Option.none) := by
            rw [← h2, ← h3, ← h4]
          have hrec := ih (storeOutput env.jsonLoads ctx sc.1 r) stored2 (i + 1) ys _ _ _ hx
          have harith : i + 1 + xs.length = i + (xs.length + 1) := by omega
          simp only [List.cons_append, runLoop, hres, hex]
          rw [show xs.append ys = xs ++ ys from rfl, hrec, ← h1, List.length_cons, ← harith]
          simp only [List.cons_append]

/-- C1: a deterministic step whose dispatcher raises or returns an
error-carrying result, under fallback enabled and an LLM configured, is
retried by invoking the agent delegate on the synthesized fallback task with
budget 5; when the agent run returns without raising, its history is recorded
as that step's result and the loop continues with the subsequent steps. -/
theorem C1_failed_step_falls_back_to_agent_and_continues (env : Env)
    (wf : WorkflowConfig) (ctx : Ctx) (stored : List WorkflowStep) (i : Nat)
    (s s0 : WorkflowStep) (changed : Bool) (rest : List WorkflowStep)
    (hllm : wf.hasLLM = true) (hfb : wf.fallback_to_agent = true)
    (hagent : s.isAgent = false) (hfail : failsDeterministically env s)
    (hres : resolveStepC ctx s0 = Except.ok (s, changed)) :
    ∃ msg,
      executeStep env wf stored i s changed =
        ((env.agentRun (fallbackTask stored i s msg) 5).map StepResult.agent, stored) ∧
      ∀ hist, env.agentRun (fallbackTask stored i s msg) 5 = Except.ok hist →
        runLoop env wf ctx stored i (s0 :: rest) =
          (StepResult.agent hist ::
            (runLoop env wf (storeOutput env.jsonLoads ctx s (StepResult.agent hist))
              stored (i + 1) rest).1,
           (runLoop env wf (storeOutput env.jsonLoads ctx s (StepResult.agent hist))
              stored (i + 1) rest).2) := by
  obtain ⟨msg, hdet⟩ := detExec_failure wf stored i hfail
  refine ⟨msg, ?_, ?_⟩
  · rw [executeStep_not_agent hagent, hdet, detFallback_invokes_agent hllm hfb]
  · intro hist hrun
    have hexec : executeStep env wf stored i s changed =
        (Except.ok (StepResult.agent hist), stored) := by
      rw [executeStep_not_agent hagent, hdet, detFallback_invokes_agent hllm hfb, hrun]
      rfl
    simp only [runLoop, hres, hexec]

theorem C1_witness :
    ∃ msg,
      executeStep envFail { steps := [stepNavW] } [stepNavW] 0 stepNavW false =
        ((envFail.agentRun (fallbackTask [stepNavW] 0 stepNavW msg) 5).map
          StepResult.agent, [stepNavW]) ∧
      ∀ hist, envFail.agentRun (fallbackTask [stepNavW] 0 stepNavW msg) 5 =
          Except.ok hist →
        runLoop envFail { steps := [stepNavW] } [] [stepNavW] 0 (stepNavW :: []) =
          (StepResult.agent hist ::
            (runLoop envFail { steps := [stepNavW] }
              (storeOutput envFail.jsonLoads [] stepNavW (StepResult.agent hist))
              [stepNavW] 1 []).1,
           (runLoop envFail { steps := [stepNavW] }
              (storeOutput envFail.jsonLoads [] stepNavW (StepResult.agent hist))
              [stepNavW] 1 []).2) :=
  C1_failed_step_falls_back_to_agent_and_continues envFail { steps := [stepNavW] }
    [] [stepNavW] 0 stepNavW stepNavW false [] rfl rfl rfl
    (Or.inl ⟨"boom", rfl⟩) rfl

/-- C2: when a deterministic step fails while fallback is disabled or no LLM
is configured, the run raises at that step: the collected results are exactly
those of the steps strictly before the failing one, and no later step
executes. -/
theorem C2_failure_without_fallback_aborts_run (env : Env) (wf : WorkflowConfig)
    (inputs : Ctx) (pre : List WorkflowStep) (s0 : WorkflowStep)
    (rest : List WorkflowStep) (rs : List StepResult) (ctx2 : Ctx)
    (stored2 : List WorkflowStep) (sres : WorkflowStep) (changed : Bool)
    (hval : validateInputs wf.inputs_def inputs = Except.ok ())
    (hsteps : wf.steps = pre ++ s0 :: rest)
    (hpre : runLoop env wf inputs wf.steps 0 pre = (rs, ctx2, stored2, Option.none))
    (hres : resolveStepC ctx2 s0 = Except.ok (sres, changed))
    (hagent : sres.isAgent = false)
    (hfail : failsDeterministically env sres)
    (hcfg : wf.fallback_to_agent = false ∨ wf.hasLLM = false) :
    ∃ e, Workflow.run env wf inputs = (rs, ctx2, stored2, Option.some e) := by
  obtain ⟨msg, hdet⟩ := detExec_failure wf stored2 (0 + pre.length) hfail
  obtain ⟨e, habort⟩ := detFallback_aborts env stored2 (0 + pre.length) sres msg hcfg
  refine ⟨e, ?_⟩
  have happ := runLoop_append_ok env wf pre inputs wf.steps 0 (s0 :: rest)
    rs ctx2 stored2 hpre
  simp only [Workflow.run, hval]
  rw [hsteps] at happ ⊢
  rw [happ]
  have htail : runLoop env wf ctx2 stored2 (0 + pre.length) (s0 :: rest) =
      ([], ctx2, stored2, Option.some e) := by
    simp only [runLoop, hres, executeStep_not_agent hagent, hdet, habort]
  rw [htail]
  simp

theorem C2_witness :
    ∃ e, Workflow.run envFail { steps := [stepNavW], fallback_to_agent := false } [] =
      ([], [], [stepNavW], Option.some e) :=
  C2_failure_without_fallback_aborts_run envFail
    { steps := [stepNavW], fallback_to_agent := false } [] [] stepNavW [] [] [] [stepNavW]
    stepNavW false rfl rfl rfl rfl rfl (Or.inl ⟨"boom", rfl⟩) (Or.inl rfl)

/-- The step loop never modifies the stored step list while all pending steps
are deterministic. -/
theorem runLoop_stored_frame (env : Env) (wf : WorkflowConfig) :
    ∀ (pending : List WorkflowStep) (ctx : Ctx) (stored : List WorkflowStep) (i : Nat),
    (∀ s ∈ pending, s.isAgent = false) →
    (runLoop env wf ctx stored i pending).2.2.1 = stored := by
  intro pending
  induction pending with
  | nil => intro ctx stored i _; rfl
  | cons s rest ih =>
    intro ctx stored i h
    cases hres : resolveStepC ctx s with
    | error e => simp [runLoop, hres]
    | ok sc =>
      obtain ⟨sres, ch⟩ := sc
      have hagent : sres.isAgent = false := by
        rw [resolveStepC_isAgent hres]
        exact h s (by simp)
      cases hd : detExec env wf stored i sres with
      | error e =>
        simp [runLoop, hres, executeStep_not_agent hagent, hd]
      | ok r =>
        simp only [runLoop, hres, executeStep_not_agent hagent, hd]
        exact ih _ _ _ (fun x hx => h x (by simp [hx]))

/-- C5 (amended): a run over steps that are all deterministic leaves every
stored step equal to its load-time value — deterministic steps are never
mutated in place.  (As stated the claim is false for agentic steps: execution
assigns the templated prompt to the resolved step's `task`, and when
placeholder resolution changed no field the resolved step *is* the stored
schema step, so the stored definition is mutated in place.) -/
theorem C5_deterministic_definition_never_mutated (env : Env)
    (wf : WorkflowConfig) (inputs : Ctx)
    (h : ∀ s ∈ wf.steps, s.isAgent = false) :
    (Workflow.run env wf inputs).2.2.1 = wf.steps := by
  cases hv : validateInputs wf.inputs_def inputs with
  | error e => simp [Workflow.run, hv]
  | ok u =>
    simp only [Workflow.run, hv]
    exact runLoop_stored_frame env wf wf.steps inputs wf.steps 0 h

theorem C5_witness :
    (Workflow.run envOk { steps := [stepNavW] } []).2.2.1 =
      ({ steps := [stepNavW] } : WorkflowConfig).steps :=
  C5_deterministic_definition_never_mutated envOk { steps := [stepNavW] } []
    (fun s hs => by rw [List.mem_singleton] at hs; subst hs; rfl)

/-- C5 counterexample: a one-step workflow whose agentic step `task` has no
placeholder.  Resolution changes nothing, so the resolved step aliases the
stored one, and executing it overwrites the stored `task` with the templated
prompt: after the run the stored definition differs from its load-time value. -/
theorem C5_counterexample :
    (Workflow.run envOk { steps := [stepAgentW] } []).2.2.1 ≠
      ({ steps := [stepAgentW] } : WorkflowConfig).steps ∧
    ((Workflow.run envOk { steps := [stepAgentW] } []).2.2.1.head?.map
        WorkflowStep.task?) ≠
      (({ steps := [stepAgentW] } : WorkflowConfig).steps.head?.map
        WorkflowStep.task?) := by
  have h2 : ((Workflow.run envOk { steps := [stepAgentW] } []).2.2.1.head?.map
      WorkflowStep.task?) ≠
      (({ steps := [stepAgentW] } : WorkflowConfig).steps.head?.map
        WorkflowStep.task?) := by decide
  exact ⟨fun h => h2 (by rw [h]), h2⟩

/-- `contains` on string lists is membership. -/
theorem strContains_iff {l : List String} {a : String} : l.contains a = true ↔ a ∈ l :=
  List.elem_iff

/-- Keys of extra fields differ from every declared key. -/
theorem extras_key_ne (extras : Ctx) (declared : List String)
    (h : ∀ p ∈ extras, declared.contains p.1 = false) (k : String)
    (hk : k ∈ declared) : ∀ p ∈ extras, p.1 ≠ k := by
  intro p hp heq
  have hc := h p hp
  rw [heq, strContains_iff.mpr hk] at hc
  exact Bool.noConfusion hc

/-- Looking up a key that no extra field carries ignores the extras. -/
theorem ctxLookup_append_right_none (l extras : Ctx) (k : String)
    (h : ∀ p ∈ extras, p.1 ≠ k) : ctxLookup (l ++ extras) k = ctxLookup l k := by
  rw [ctxLookup, ctxLookup, List.find?_append]
  have hnone : extras.find? (fun p => p.1 = k) = Option.none :=
    List.find?_eq_none.mpr (fun p hp => by simp [h p hp])
  rw [hnone]
  cases l.find? (fun p => p.1 = k) <;> rfl

/-- Filtering out declared keys keeps every extra field. -/
theorem filter_extras_eq_self (extras : Ctx) (declared : List String)
    (h : ∀ p ∈ extras, declared.contains p.1 = false) :
    extras.filter (fun p => !declared.contains p.1) = extras := by
  induction extras with
  | nil => rfl
  | cons p ps ih =>
    have hp : (!declared.contains p.1) = true := by rw [h p (by simp)]; rfl
    rw [List.filter_cons, hp, if_pos rfl, ih (fun q hq => h q (by simp [hq]))]

/-- C9: loading tolerates unknown extra fields on a step — a step object
carrying arbitrary fields beyond those declared for its type parses
successfully and the extra fields are preserved on the parsed step (shown for
a deterministic and for the agentic kind) — while a document missing a
required top-level field (`name`, `description`, `version`, `steps`) or with
an empty `steps` list is rejected. -/
theorem C9_extras_tolerated_required_rejected :
    (∀ (css : String) (extras : Ctx),
       (∀ p ∈ extras,
         (baseKeys ++
           ["type", "cssSelector", "xpath", "elementTag", "elementText"]).contains
           p.1 = false) →
       parseStep (PyValue.dict ([("type", PyValue.str "click"),
           ("cssSelector", PyValue.str css)] ++ extras)) =
         Except.ok (WorkflowStep.click { extra := extras } css
           Option.none Option.none Option.none)) ∧
    (∀ (task : String) (extras : Ctx),
       (∀ p ∈ extras,
         (baseKeys ++ ["type", "task", "max_steps"]).contains p.1 = false) →
       parseStep (PyValue.dict ([("type", PyValue.str "agent"),
           ("task", PyValue.str task)] ++ extras)) =
         Except.ok (WorkflowStep.agent { extra := extras } task Option.none)) ∧
    (∀ fields : Ctx, ctxLookup fields "name" = Option.none →
       ∃ e, parseWorkflowDefinition (PyValue.dict fields) = Except.error e) ∧
    (∀ fields : Ctx, ctxLookup fields "description" = Option.none →
       ∃ e, parseWorkflowDefinition (PyValue.dict fields) = Except.error e) ∧
    (∀ fields : Ctx, ctxLookup fields "version" = Option.none →
       ∃ e, parseWorkflowDefinition (PyValue.dict fields) = Except.error e) ∧
    (∀ fields : Ctx, ctxLookup fields "steps" = Option.none →
       ∃ e, parseWorkflowDefinition (PyValue.dict fields) = Except.error e) ∧
    (∀ fields : Ctx, ctxLookup fields "steps" = Option.some (PyValue.list []) →
       ∃ e, parseWorkflowDefinition (PyValue.dict fields) = Except.error e) := by
  have hlk : ∀ (fixed extras : Ctx) (declared : List String), (∀ p ∈ extras,
      declared.contains p.1 = false) → ∀ k ∈ declared,
      ctxLookup (fixed ++ extras) k = ctxLookup fixed k :=
    fun fixed extras declared h k hk =>
      ctxLookup_append_right_none fixed extras k (extras_key_ne extras declared h k hk)
  refine ⟨?_, ?_, ?_, ?_, ?_, ?_, ?_⟩
  · intro css extras hext
    have hd := hlk [("type", PyValue.str "click"), ("cssSelector", PyValue.str css)]
      extras _ hext "description" (by simp [baseKeys])
    have ho := hlk [("type", PyValue.str "click"), ("cssSelector", PyValue.str css)]
      extras _ hext "output" (by simp [baseKeys])
    have hts := hlk [("type", PyValue.str "click"), ("cssSelector", PyValue.str css)]
      extras _ hext "timestamp" (by simp [baseKeys])
    have htb := hlk [("type", PyValue.str "click"), ("cssSelector", PyValue.str css)]
      extras _ hext "tabId" (by simp [baseKeys])
    have hty := hlk [("type", PyValue.str "click"), ("cssSelector", PyValue.str css)]
      extras _ hext "type" (by simp [baseKeys])
    have hcss := hlk [("type", PyValue.str "click"), ("cssSelector", PyValue.str css)]
      extras _ hext "cssSelector" (by simp [baseKeys])
    have hx := hlk [("type", PyValue.str "click"), ("cssSelector", PyValue.str css)]
      extras _ hext "xpath" (by simp [baseKeys])
    have htg := hlk [("type", PyValue.str "click"), ("cssSelector", PyValue.str css)]
      extras _ hext "elementTag" (by simp [baseKeys])
    have htx := hlk [("type", PyValue.str "click"), ("cssSelector", PyValue.str css)]
      extras _ hext "elementText" (by simp [baseKeys])
    have hfil : ([("type", PyValue.str "click"),
        ("cssSelector", PyValue.str css)] ++ extras).filter
        (fun p => !(baseKeys ++
          ["type", "cssSelector", "xpath", "elementTag", "elementText"]).contains p.1) =
        extras := by
      rw [List.filter_append, filter_extras_eq_self extras _ hext]
      rfl
    simp only [parseStep, hty]
    simp only [show ctxLookup [("type", PyValue.str "click"),
      ("cssSelector", PyValue.str css)] "type" = Option.some (PyValue.str "click")
      from rfl]
    simp only [parseBase, getOptStr, getOptInt, getReqStr, hd, ho, hts, htb, hcss,
      hx, htg, htx, hfil, except_error_bind, except_ok_bind]
    rfl
  · intro task extras hext
    have hd := hlk [("type", PyValue.str "agent"), ("task", PyValue.str task)]
      extras _ hext "description" (by simp [baseKeys])
    have ho := hlk [("type", PyValue.str "agent"), ("task", PyValue.str task)]
      extras _ hext "output" (by simp [baseKeys])
    have hts := hlk [("type", PyValue.str "agent"), ("task", PyValue.str task)]
      extras _ hext "timestamp" (by simp [baseKeys])
    have htb := hlk [("type", PyValue.str "agent"), ("task", PyValue.str task)]
      extras _ hext "tabId" (by simp [baseKeys])
    have hty := hlk [("type", PyValue.str "agent"), ("task", PyValue.str task)]
      extras _ hext "type" (by simp [baseKeys])
    have hta := hlk [("type", PyValue.str "agent"), ("task", PyValue.str task)]
      extras _ hext "task" (by simp [baseKeys])
    have hms := hlk [("type", PyValue.str "agent"), ("task", PyValue.str task)]
      extras _ hext "max_steps" (by simp [baseKeys])
    have hfil : ([("type", PyValue.str "agent"),
        ("task", PyValue.str task)] ++ extras).filter
        (fun p => !(baseKeys ++ ["type", "task", "max_steps"]).contains p.1) =
        extras := by
      rw [List.filter_append, filter_extras_eq_self extras _ hext]
      rfl
    simp only [parseStep, hty]
    simp only [show ctxLookup [("type", PyValue.str "agent"),
      ("task", PyValue.str task)] "type" = Option.some (PyValue.str "agent")
      from rfl]
    simp only [parseBase, getOptStr, getOptInt, getReqStr, hd, ho, hts, htb, hta,
      hms, hfil, except_error_bind, except_ok_bind]
    rfl
  · intro fields h
    have hnerr : getReqStr fields "name" = Except.error "name: Field required" := by
      simp only [getReqStr, h]; rfl
    exact ⟨"name: Field required",
      by simp only [parseWorkflowDefinition, hnerr, except_error_bind]⟩
  · intro fields h
    cases hn : getReqStr fields "name" with
    | error e =>
      exact ⟨e, by simp only [parseWorkflowDefinition, hn, except_error_bind]⟩
    | ok v =>
      have hderr : getReqStr fields "description" =
          Except.error "description: Field required" := by
        simp only [getReqStr, h]; rfl
      exact ⟨"description: Field required",
        by simp only [parseWorkflowDefinition, hn, hderr, except_ok_bind,
          except_error_bind]⟩
  · intro fields h
    cases hn : getReqStr fields "name" with
    | error e =>
      exact ⟨e, by simp only [parseWorkflowDefinition, hn, except_error_bind]⟩
    | ok v =>
      cases hdsc : getReqStr fields "description" with
      | error e =>
        exact ⟨e, by simp only [parseWorkflowDefinition, hn, hdsc, except_ok_bind,
          except_error_bind]⟩
      | ok v2 =>
        have hverr : getReqStr fields "version" =
            Except.error "version: Field required" := by
          simp only [getReqStr, h]; rfl
        exact ⟨"version: Field required",
          by simp only [parseWorkflowDefinition, hn, hdsc, hverr, except_ok_bind,
            except_error_bind]⟩
  · intro fields h
    cases hn : getReqStr fields "name" with
    | error e =>
      exact ⟨e, by simp only [parseWorkflowDefinition, hn, except_error_bind]⟩
    | ok v =>
      cases hdsc : getReqStr fields "description" with
      | error e =>
        exact ⟨e, by simp only [parseWorkflowDefinition, hn, hdsc, except_ok_bind,
          except_error_bind]⟩
      | ok v2 =>
        cases hver : getReqStr fields "version" with
        | error e =>
          exact ⟨e, by simp only [parseWorkflowDefinition, hn, hdsc, hver,
            except_ok_bind, except_error_bind]⟩
        | ok v3 =>
          cases hsch : parseOptInputSchema fields with
          | error e =>
            exact ⟨e, by simp only [parseWorkflowDefinition, hn, hdsc, hver, hsch,
              except_ok_bind, except_error_bind]⟩
          | ok w =>
            exact ⟨"steps: Field required",
              by simp only [parseWorkflowDefinition, hn, hdsc, hver, hsch, h,
                except_ok_bind, except_error_bind]⟩
  · intro fields h
    cases hn : getReqStr fields "name" with
    | error e =>
      exact ⟨e, by simp only [parseWorkflowDefinition, hn, except_error_bind]⟩
    | ok v =>
      cases hdsc : getReqStr fields "description" with
      | error e =>
        exact ⟨e, by simp only [parseWorkflowDefinition, hn, hdsc, except_ok_bind,
          except_error_bind]⟩
      | ok v2 =>
        cases hver : getReqStr fields "version" with
        | error e =>
          exact ⟨e, by simp only [parseWorkflowDefinition, hn, hdsc, hver,
            except_ok_bind, except_error_bind]⟩
        | ok v3 =>
          cases hsch : parseOptInputSchema fields with
          | error e =>
            exact ⟨e, by simp only [parseWorkflowDefinition, hn, hdsc, hver, hsch,
              except_ok_bind, except_error_bind]⟩
          | ok w =>
            exact ⟨"steps: List should have at least 1 item", by
              simp only [parseWorkflowDefinition, hn, hdsc, hver, hsch, h,
                except_ok_bind, except_error_bind, List.isEmpty_nil]
              rfl⟩

theorem C9_witness :
    parseStep (PyValue.dict ([("type", PyValue.str "click"),
        ("cssSelector", PyValue.str "#btn")] ++ [("recordedAt", PyValue.int 7)])) =
      Except.ok (WorkflowStep.click { extra := [("recordedAt", PyValue.int 7)] } "#btn"
        Option.none Option.none Option.none) ∧
    (∃ e, parseWorkflowDefinition (PyValue.dict []) = Except.error e) :=
  ⟨C9_extras_tolerated_required_rejected.1 "#btn" [("recordedAt", PyValue.int 7)]
      (by decide),
   C9_extras_tolerated_required_rejected.2.2.1 [] rfl⟩

end WorkflowUse
